import Mathlib

/-!
Verification of the BrainyPal study-aid backend (Flask + AI-service repository).

Strings are modelled as `List Char`.  Python semantics is embedded shallowly:
fallible code returns `Except PyErr _`, the global `random` module state is an
explicit `Rng` value threaded through the functions that consume it, and
external libraries (nltk, the Hugging Face HTTP API) are oracle parameters.
-/

namespace BrainyPal

abbrev Str := List Char

/-- Python exceptions that the embedded code can raise. -/
inductive PyErr where
  | keyError (key : Str)
  | indexError
  | nameError
  | valueError
  | attributeError (msg : Str)
  | apiError (msg : Str)
  deriving DecidableEq, Repr

/-- Whitespace for Python's `str.strip()` / regex `\s` (ASCII part plus the
main Unicode whitespace code points recognised by CPython). -/
def pyIsSpace (c : Char) : Bool :=
  c = ' ' || c = '\t' || c = '\n' || c = '\r' || c.val = 0x0b || c.val = 0x0c ||
  (0x1c ≤ c.val && c.val ≤ 0x1f) || c.val = 0x85 || c.val = 0xa0 ||
  c.val = 0x1680 || (0x2000 ≤ c.val && c.val ≤ 0x200a) ||
  c.val = 0x2028 || c.val = 0x2029 || c.val = 0x202f || c.val = 0x205f || c.val = 0x3000

/-- Python `str.strip()`: drop leading and trailing whitespace. -/
def pyStrip (s : Str) : Str :=
  ((s.dropWhile pyIsSpace).reverse.dropWhile pyIsSpace).reverse

/-- Auxiliary scanner for `re.sub(r'\s+', ' ', text)`: the flag records whether
the character just emitted came from a whitespace run (so further whitespace of
the same run is skipped). -/
def collapseWsAux : Bool → Str → Str
  | _, [] => []
  | prevWs, c :: cs =>
    if pyIsSpace c then
      if prevWs then collapseWsAux true cs
      else ' ' :: collapseWsAux true cs
    else c :: collapseWsAux false cs

/-- `re.sub(r'\s+', ' ', text)`: every maximal whitespace run becomes one space. -/
def collapseWs (s : Str) : Str := collapseWsAux false s

/-- Characters kept by `re.sub(r'[^\x20-\x7E\n\t]', '', text)` in
`clean_extracted_text` (src/utils.py line 202). -/
def printableKeep (c : Char) : Bool :=
  (0x20 ≤ c.val && c.val ≤ 0x7e) || c = '\n' || c = '\t'

/-- Index of the last `'\n'` in a list, if any. -/
def lastNlIdx (r : Str) : Option ℕ :=
  match r.reverse.findIdx? (· = '\n') with
  | some i => some (r.length - 1 - i)
  | none => none

/-- Fuel-driven scanner for `re.sub(r'\n\s*\n', '\n\n', text)`
(src/utils.py line 205).  A match starts at a `'\n'`; the greedy `\s*` then
backtracks to the last `'\n'` inside the following whitespace run. -/
def subNNAux : ℕ → Str → Str
  | 0, s => s
  | _ + 1, [] => []
  | fuel + 1, c :: cs =>
    if c = '\n' then
      match lastNlIdx (cs.takeWhile pyIsSpace) with
      | some k => '\n' :: '\n' :: subNNAux fuel (cs.drop (k + 1))
      | none => c :: subNNAux fuel cs
    else c :: subNNAux fuel cs

/-- `re.sub(r'\n\s*\n', '\n\n', text)`. -/
def subNN (s : Str) : Str := subNNAux s.length s

/-- src/utils.py lines 193-210, `clean_extracted_text`:
collapse whitespace runs to a single space, delete characters outside
`\x20`-`\x7E` (keeping `\n` and `\t`), normalise blank lines, then strip. -/
def clean_extracted_text (text : Str) : Str :=
  if text = [] then []
  else pyStrip (subNN ((collapseWs text).filter printableKeep))

/-- Boolean check: no two consecutive whitespace characters. -/
def noConsecWsB : Str → Bool
  | [] => true
  | [_] => true
  | a :: b :: t => !(pyIsSpace a && pyIsSpace b) && noConsecWsB (b :: t)

/-- Boolean check: the first and last characters (when present) are not whitespace. -/
def noEdgeWsB (s : Str) : Bool :=
  (match s.head? with | some c => !pyIsSpace c | none => true) &&
  (match s.getLast? with | some c => !pyIsSpace c | none => true)

/-- The pairwise relation underlying `noConsecWsB`. -/
def wsApart (a b : Char) : Prop := ¬(pyIsSpace a = true ∧ pyIsSpace b = true)

lemma noConsecWsB_iff : ∀ (s : Str), noConsecWsB s = true ↔ s.Chain' wsApart
  | [] => by simp [noConsecWsB]
  | [a] => by simp [noConsecWsB]
  | a :: b :: t => by
    rw [noConsecWsB, List.chain'_cons, ← noConsecWsB_iff (b :: t)]
    simp only [Bool.and_eq_true, Bool.not_eq_true', Bool.and_eq_false_iff, wsApart]
    constructor
    · rintro ⟨h1, h2⟩
      refine ⟨fun ⟨ha, hb⟩ => ?_, h2⟩
      rcases h1 with h1 | h1
      · exact absurd ha (by simp [h1])
      · exact absurd hb (by simp [h1])
    · rintro ⟨h1, h2⟩
      refine ⟨?_, h2⟩
      by_cases ha : pyIsSpace a = true
      · by_cases hb : pyIsSpace b = true
        · exact absurd ⟨ha, hb⟩ h1
        · exact Or.inr (eq_false_of_ne_true hb)
      · exact Or.inl (eq_false_of_ne_true ha)

lemma mem_collapseWsAux {c : Char} : ∀ (b : Bool) (s : Str),
    c ∈ collapseWsAux b s → c = ' ' ∨ c ∈ s := by
  intro b s
  induction s generalizing b with
  | nil => simp [collapseWsAux]
  | cons d cs ih =>
    simp only [collapseWsAux]
    split_ifs with h1 h2
    · intro h
      rcases ih true h with h | h
      · exact Or.inl h
      · exact Or.inr (List.mem_cons_of_mem _ h)
    · intro h
      rcases List.mem_cons.1 h with h | h
      · exact Or.inl h
      · rcases ih true h with h | h
        · exact Or.inl h
        · exact Or.inr (List.mem_cons_of_mem _ h)
    · intro h
      rcases List.mem_cons.1 h with h | h
      · exact Or.inr (h ▸ List.mem_cons_self _ _)
      · rcases ih false h with h | h
        · exact Or.inl h
        · exact Or.inr (List.mem_cons_of_mem _ h)

lemma ws_collapseWsAux {c : Char} : ∀ (b : Bool) (s : Str),
    c ∈ collapseWsAux b s → pyIsSpace c = true → c = ' ' := by
  intro b s
  induction s generalizing b with
  | nil => simp [collapseWsAux]
  | cons d cs ih =>
    simp only [collapseWsAux]
    split_ifs with h1 h2
    · exact fun h hc => ih true h hc
    · intro h hc
      rcases List.mem_cons.1 h with h | h
      · exact h
      · exact ih true h hc
    · intro h hc
      rcases List.mem_cons.1 h with h | h
      · exact absurd (h ▸ hc) (by simp [h1])
      · exact ih false h hc

lemma head_collapseWsAux_true {c : Char} : ∀ (s : Str),
    (collapseWsAux true s).head? = some c → pyIsSpace c = false := by
  intro s
  induction s with
  | nil => simp [collapseWsAux]
  | cons d cs ih =>
    simp only [collapseWsAux]
    split_ifs with h1
    · exact ih
    · intro h
      simp only [List.head?_cons, Option.some.injEq] at h
      simpa [← h] using h1

lemma chain_collapseWsAux : ∀ (b : Bool) (s : Str), (collapseWsAux b s).Chain' wsApart := by
  intro b s
  induction s generalizing b with
  | nil => simp [collapseWsAux]
  | cons d cs ih =>
    simp only [collapseWsAux]
    split_ifs with h1 h2
    · exact ih true
    · refine List.chain'_cons'.2 ⟨?_, ih true⟩
      intro y hy
      have := head_collapseWsAux_true cs hy
      simp [wsApart, this]
    · refine List.chain'_cons'.2 ⟨?_, ih false⟩
      intro y hy
      simp [wsApart, h1]

lemma collapseWsAux_eq_self : ∀ (s : Str),
    (∀ c ∈ s, pyIsSpace c = true → c = ' ') → s.Chain' wsApart →
    ∀ (b : Bool), (b = true → ∀ c, s.head? = some c → pyIsSpace c = false) →
    collapseWsAux b s = s := by
  intro s
  induction s with
  | nil => intro _ _ b _; cases b <;> rfl
  | cons d cs ih =>
    intro hall hchain b hflag
    by_cases hd : pyIsSpace d = true
    · have hb : b = false := by
        cases b with
        | false => rfl
        | true => exact absurd hd (by simpa using hflag rfl d rfl)
      subst hb
      have hd' : d = ' ' := hall d (List.mem_cons_self _ _) hd
      have hhead : ∀ c, cs.head? = some c → pyIsSpace c = false := by
        intro c hc
        have := (List.chain'_cons'.1 hchain).1 c hc
        simp only [wsApart, hd, true_and] at this
        exact eq_false_of_ne_true this
      have htail : collapseWsAux true cs = cs :=
        ih (fun c hc => hall c (List.mem_cons_of_mem _ hc))
          ((List.chain'_cons'.1 hchain).2) true (fun _ => hhead)
      have hstep : collapseWsAux false (d :: cs) = ' ' :: collapseWsAux true cs := by
        simp [collapseWsAux, hd]
      rw [hstep, htail, hd']
    · have htail : collapseWsAux false cs = cs :=
        ih (fun c hc => hall c (List.mem_cons_of_mem _ hc))
          ((List.chain'_cons'.1 hchain).2) false (by simp)
      simp [collapseWsAux, hd, htail]

lemma head_dropWhile {p : Char → Bool} : ∀ (s : Str) (c : Char),
    (s.dropWhile p).head? = some c → p c = false := by
  intro s
  induction s with
  | nil => simp [List.dropWhile]
  | cons d cs ih =>
    intro c h
    rw [List.dropWhile_cons] at h
    split_ifs at h with h1
    · exact ih c h
    · simp only [List.head?_cons, Option.some.injEq] at h
      simpa [← h] using h1

lemma mem_pyStrip {c : Char} {s : Str} (h : c ∈ pyStrip s) : c ∈ s := by
  unfold pyStrip at h
  rw [List.mem_reverse] at h
  have h1 := (List.dropWhile_sublist (l := (s.dropWhile pyIsSpace).reverse) pyIsSpace).mem h
  rw [List.mem_reverse] at h1
  exact (List.dropWhile_sublist pyIsSpace).mem h1

lemma wsApart_flip {a b : Char} (h : wsApart a b) : wsApart b a := by
  simp only [wsApart, and_comm] at h ⊢
  exact h

lemma chain_reverse_of {s : Str} (h : s.Chain' wsApart) : s.reverse.Chain' wsApart := by
  rw [List.chain'_reverse]
  exact List.Chain'.imp (fun a b hab => wsApart_flip hab) h

lemma chain_pyStrip {s : Str} (h : s.Chain' wsApart) : (pyStrip s).Chain' wsApart := by
  unfold pyStrip
  apply chain_reverse_of
  exact ((chain_reverse_of (h.suffix (List.dropWhile_suffix _))).suffix (List.dropWhile_suffix _))

lemma noEdgeWsB_eq {s : Str} : noEdgeWsB s = true ↔
    (∀ c, s.head? = some c → pyIsSpace c = false) ∧
    (∀ c, s.getLast? = some c → pyIsSpace c = false) := by
  unfold noEdgeWsB
  rw [Bool.and_eq_true]
  constructor
  · rintro ⟨h1, h2⟩
    constructor
    · intro c hc; rw [hc] at h1; simpa using h1
    · intro c hc; rw [hc] at h2; simpa using h2
  · rintro ⟨h1, h2⟩
    constructor
    · rcases hc : s.head? with _ | c
      · rfl
      · simpa using h1 c hc
    · rcases hc : s.getLast? with _ | c
      · rfl
      · simpa using h2 c hc

lemma noEdgeWs_pyStrip (s : Str) : noEdgeWsB (pyStrip s) = true := by
  rw [noEdgeWsB_eq]
  unfold pyStrip
  constructor
  · intro c hv
    rw [List.head?_reverse] at hv
    have hne : (s.dropWhile pyIsSpace).reverse.dropWhile pyIsSpace ≠ [] := by
      intro hnil
      rw [hnil] at hv
      simp at hv
    obtain ⟨t, ht⟩ := List.dropWhile_suffix (l := (s.dropWhile pyIsSpace).reverse) pyIsSpace
    have hlast : ((s.dropWhile pyIsSpace).reverse).getLast? = some c := by
      rw [← ht, List.getLast?_append_of_ne_nil _ hne, hv]
    rw [List.getLast?_reverse] at hlast
    exact head_dropWhile s c hlast
  · intro c hv
    rw [List.getLast?_reverse] at hv
    exact head_dropWhile _ c hv

lemma dropWhile_eq_self_of_head {p : Char → Bool} {s : Str}
    (h : ∀ c, s.head? = some c → p c = false) : s.dropWhile p = s := by
  cases s with
  | nil => rfl
  | cons d cs =>
    rw [List.dropWhile_cons, if_neg]
    simp [h d rfl]

lemma pyStrip_eq_self {s : Str} (h : noEdgeWsB s = true) : pyStrip s = s := by
  rw [noEdgeWsB_eq] at h
  unfold pyStrip
  rw [dropWhile_eq_self_of_head (p := pyIsSpace) (s := s) h.1]
  rw [dropWhile_eq_self_of_head (p := pyIsSpace) ?hlast, List.reverse_reverse]
  case hlast =>
    intro c hc
    rw [List.head?_reverse] at hc
    exact h.2 c hc

lemma subNNAux_eq_self : ∀ (s : Str) (fuel : ℕ), '\n' ∉ s → subNNAux fuel s = s := by
  intro s
  induction s with
  | nil => intro fuel _; cases fuel <;> rfl
  | cons c cs ih =>
    intro fuel h
    cases fuel with
    | zero => rfl
    | succ f =>
      have hc : ¬(c = '\n') := fun hcc => h (hcc ▸ List.mem_cons_self _ _)
      simp only [subNNAux, if_neg hc]
      rw [ih f (fun hm => h (List.mem_cons_of_mem _ hm))]

/-- After collapsing whitespace runs and deleting non-printable characters, no
newline remains, so the blank-line substitution in `clean_extracted_text` is the
identity: the function reduces to strip-of-filter-of-collapse. -/
lemma clean_eq (text : Str) :
    clean_extracted_text text = pyStrip (((collapseWs text).filter printableKeep)) := by
  unfold clean_extracted_text
  split_ifs with h
  · subst h; rfl
  · rw [subNN, subNNAux_eq_self]
    intro hmem
    have h1 := List.mem_filter.1 hmem
    have := ws_collapseWsAux false text h1.1 (by decide)
    simp at this

lemma ws_clean {c : Char} {text : Str}
    (h : c ∈ clean_extracted_text text) (hc : pyIsSpace c = true) : c = ' ' := by
  rw [clean_eq] at h
  have h1 := mem_pyStrip h
  exact ws_collapseWsAux false text (List.mem_filter.1 h1).1 hc

lemma keep_clean {c : Char} {text : Str} (h : c ∈ clean_extracted_text text) :
    printableKeep c = true := by
  rw [clean_eq] at h
  exact (List.mem_filter.1 (mem_pyStrip h)).2

lemma filter_keep_collapse {text : Str} (h : ∀ c ∈ text, printableKeep c = true) :
    (collapseWs text).filter printableKeep = collapseWs text := by
  apply List.filter_eq_self.2
  intro c hc
  rcases mem_collapseWsAux false text hc with h1 | h1
  · rw [h1]; decide
  · exact h c h1

lemma chain_clean {text : Str} (h : ∀ c ∈ text, printableKeep c = true) :
    (clean_extracted_text text).Chain' wsApart := by
  rw [clean_eq, filter_keep_collapse h]
  exact chain_pyStrip (chain_collapseWsAux false text)

/-- C10 counterexample: on the input `"a é b"` the cleaner first collapses
whitespace, then deletes the non-printable `é`, leaving the two surrounding
spaces adjacent; a second application collapses them, so the function is not
idempotent and its output contains two consecutive whitespace characters. -/
theorem c10_counterexample :
    clean_extracted_text (clean_extracted_text ("a é b".data)) ≠
      clean_extracted_text ("a é b".data) ∧
    noConsecWsB (clean_extracted_text ("a é b".data)) = false := by
  constructor
  · decide
  · decide

/-- C10 (amended): for inputs all of whose characters survive the
non-printable deletion (printable ASCII, tab or newline),
`clean_extracted_text` is idempotent and its result contains no two
consecutive whitespace characters; the result also never has leading or
trailing whitespace. -/
theorem c10_amended (s : Str) (h : s.all printableKeep = true) :
    clean_extracted_text (clean_extracted_text s) = clean_extracted_text s ∧
    noConsecWsB (clean_extracted_text s) = true ∧
    noEdgeWsB (clean_extracted_text s) = true := by
  rw [List.all_eq_true] at h
  refine ⟨?_, ?_, ?_⟩
  · set r := clean_extracted_text s with hr
    have hkeep : ∀ c ∈ r, printableKeep c = true := fun c hc => keep_clean hc
    have hws : ∀ c ∈ r, pyIsSpace c = true → c = ' ' := fun c hc => ws_clean hc
    have hchain : r.Chain' wsApart := chain_clean h
    have h1 : collapseWs r = r := collapseWsAux_eq_self r hws hchain false (by simp)
    have h2 : r.filter printableKeep = r := List.filter_eq_self.2 hkeep
    have h3 : noEdgeWsB r = true := by rw [hr, clean_eq]; exact noEdgeWs_pyStrip _
    rw [clean_eq r, h1, h2]
    exact pyStrip_eq_self h3
  · rw [noConsecWsB_iff]
    exact chain_clean h
  · rw [clean_eq]
    exact noEdgeWs_pyStrip _

/-- Witness for `c10_amended` at a concrete input. -/
theorem c10_amended_witness :
    ("ab  cd e".data.all printableKeep = true) ∧
    (clean_extracted_text (clean_extracted_text ("ab  cd e".data)) =
        clean_extracted_text ("ab  cd e".data) ∧
      noConsecWsB (clean_extracted_text ("ab  cd e".data)) = true ∧
      noEdgeWsB (clean_extracted_text ("ab  cd e".data)) = true) :=
  ⟨by decide, c10_amended ("ab  cd e".data) (by decide)⟩

/-! ### src/models.py : flashcard learning metrics -/

/-- Learning-metric fields of a `Flashcard` row (src/models.py lines 62-66).
`mastery_level` is a float in Python; all values produced by the update below
are exact in IEEE terms of the rational model used here. -/
structure FlashcardPerf where
  times_reviewed : ℕ
  times_correct : ℕ
  mastery_level : ℚ
  deriving DecidableEq, Repr

/-- A freshly created flashcard: `times_reviewed = 0`, `times_correct = 0`,
`mastery_level = 0.0` (column defaults, src/models.py lines 63-66). -/
def FlashcardPerf.init : FlashcardPerf := ⟨0, 0, 0⟩

/-- src/models.py lines 329-345, `update_flashcard_performance` restricted to
the found-flashcard branch: increment `times_reviewed`, increment
`times_correct` when the review was correct, and recompute
`mastery_level = min(1.0, accuracy * (times_reviewed / 10))`. -/
def update_flashcard_performance (f : FlashcardPerf) (correct : Bool) : FlashcardPerf :=
  let tr := f.times_reviewed + 1
  let tc := if correct then f.times_correct + 1 else f.times_correct
  let mastery :=
    if 0 < tr then min 1 (((tc : ℚ) / (tr : ℚ)) * ((tr : ℚ) / 10)) else f.mastery_level
  ⟨tr, tc, mastery⟩

/-- A sequence of review calls applied to a flashcard. -/
def reviewRuns (f : FlashcardPerf) (seq : List Bool) : FlashcardPerf :=
  seq.foldl update_flashcard_performance f

/-- The metric invariant claimed for flashcards. -/
def FlashcardPerf.Inv (f : FlashcardPerf) : Prop :=
  f.times_correct ≤ f.times_reviewed ∧
  0 ≤ f.mastery_level ∧ f.mastery_level ≤ 1 ∧
  (0 < f.times_reviewed →
    f.mastery_level =
      min 1 (((f.times_correct : ℚ) / (f.times_reviewed : ℚ)) * ((f.times_reviewed : ℚ) / 10)))

lemma update_flashcard_inv {f : FlashcardPerf} (h : f.Inv) (correct : Bool) :
    (update_flashcard_performance f correct).Inv := by
  obtain ⟨h1, _, _, _⟩ := h
  unfold update_flashcard_performance FlashcardPerf.Inv
  simp only [Nat.succ_sub_one]
  have htr : (0 : ℕ) < f.times_reviewed + 1 := Nat.succ_pos _
  refine ⟨?_, ?_, ?_, ?_⟩
  · cases correct <;> simp <;> omega
  · rw [if_pos htr]
    have hx : (0 : ℚ) ≤ ((if correct then f.times_correct + 1 else f.times_correct : ℕ) : ℚ) /
        ((f.times_reviewed + 1 : ℕ) : ℚ) * (((f.times_reviewed + 1 : ℕ) : ℚ) / 10) := by
      positivity
    exact le_min (by norm_num) hx
  · rw [if_pos htr]
    exact min_le_left _ _
  · intro _
    rw [if_pos htr]

theorem flashcardPerf_init_inv : FlashcardPerf.init.Inv := by
  refine ⟨le_refl _, le_refl _, by norm_num [FlashcardPerf.init], ?_⟩
  intro h
  exact absurd h (by simp [FlashcardPerf.init])

lemma reviewRuns_inv {f : FlashcardPerf} (h : f.Inv) (seq : List Bool) :
    (reviewRuns f seq).Inv := by
  induction seq generalizing f with
  | nil => exact h
  | cons b bs ih => exact ih (update_flashcard_inv h b)

/-- C9: starting from a fresh flashcard, after any sequence of
`update_flashcard_performance` calls we have
`times_correct ≤ times_reviewed`, `0 ≤ mastery_level ≤ 1`, and the mastery
formula `min(1, (times_correct/times_reviewed) * (times_reviewed/10))` whenever
`times_reviewed > 0`. -/
theorem c9_flashcard_metrics (seq : List Bool) :
    (reviewRuns FlashcardPerf.init seq).times_correct ≤
      (reviewRuns FlashcardPerf.init seq).times_reviewed ∧
    0 ≤ (reviewRuns FlashcardPerf.init seq).mastery_level ∧
    (reviewRuns FlashcardPerf.init seq).mastery_level ≤ 1 ∧
    (0 < (reviewRuns FlashcardPerf.init seq).times_reviewed →
      (reviewRuns FlashcardPerf.init seq).mastery_level =
        min 1 ((((reviewRuns FlashcardPerf.init seq).times_correct : ℚ) /
            ((reviewRuns FlashcardPerf.init seq).times_reviewed : ℚ)) *
          (((reviewRuns FlashcardPerf.init seq).times_reviewed : ℚ) / 10))) :=
  reviewRuns_inv flashcardPerf_init_inv seq

/-! ### src/utils.py : RateLimiter -/

/-- In-memory request store of the rate limiter (src/utils.py lines 677-681):
`requests` maps a user id to the list stored under that key, `none` when the
key is absent from the dict.  Timestamps are rationals measured in minutes. -/
structure RateLimiter where
  requests : ℤ → Option (List ℚ)

def RateLimiter.empty : RateLimiter := ⟨fun _ => none⟩

/-- Store a list under a user key (dict assignment). -/
def rlUpdate (rl : RateLimiter) (uid : ℤ) (l : List ℚ) : RateLimiter :=
  ⟨fun u => if u = uid then some l else rl.requests u⟩

/-- src/utils.py lines 683-702, `RateLimiter.is_allowed`: drop entries at or
before `now - window_minutes` (both the present-key and absent-key branches
store the pruned list), then allow and record the call iff fewer than `limit`
entries remain. -/
def is_allowed (rl : RateLimiter) (user_id limit : ℤ) (window_minutes now : ℚ) :
    Bool × RateLimiter :=
  let window_start := now - window_minutes
  let cur := ((rl.requests user_id).getD []).filter (fun t => decide (window_start < t))
  if (cur.length : ℤ) < limit then (true, rlUpdate rl user_id (cur ++ [now]))
  else (false, rlUpdate rl user_id cur)

/-- src/utils.py lines 704-716, `RateLimiter.get_remaining_requests`. -/
def get_remaining_requests (rl : RateLimiter) (user_id limit : ℤ)
    (window_minutes now : ℚ) : ℤ :=
  match rl.requests user_id with
  | some l =>
      max 0 (limit - ((l.filter (fun t => decide (now - window_minutes < t))).length : ℤ))
  | none => limit

/-- Run a sequence of `is_allowed` calls for one user at the given clock
readings, collecting each call's verdict. -/
def runCalls (user_id limit : ℤ) (window_minutes : ℚ) (rl : RateLimiter) :
    List ℚ → RateLimiter × List (ℚ × Bool)
  | [] => (rl, [])
  | t :: ts =>
    let r := is_allowed rl user_id limit window_minutes t
    let rest := runCalls user_id limit window_minutes r.2 ts
    (rest.1, (t, r.1) :: rest.2)

/-- `t` lies in the half-open window `(t0 - W, t0]`. -/
def winB (W t0 t : ℚ) : Bool := decide (t0 - W < t) && decide (t ≤ t0)

/-- Number of timestamps of `A` inside the window ending at `t0`. -/
def windowCount (W t0 : ℚ) (A : List ℚ) : ℕ := (A.filter (winB W t0)).length

/-- Number of `True`-returning calls whose timestamp lies inside the window
ending at `t0`. -/
def allowedCount (W t0 : ℚ) (results : List (ℚ × Bool)) : ℕ :=
  (results.filter (fun p => p.2 && winB W t0 p.1)).length

lemma winB_nonpos {W t0 t : ℚ} (hW : W ≤ 0) : winB W t0 t = false := by
  cases hb : winB W t0 t with
  | false => rfl
  | true =>
    rw [winB, Bool.and_eq_true, decide_eq_true_eq, decide_eq_true_eq] at hb
    have : t0 < t0 := by linarith [hb.1, hb.2]
    exact absurd this (lt_irrefl _)

lemma windowCount_append_single (W t1 t : ℚ) (A : List ℚ) :
    windowCount W t1 (A ++ [t]) = windowCount W t1 A + (if winB W t1 t then 1 else 0) := by
  rw [windowCount, List.filter_append, List.length_append, windowCount]
  congr 1
  cases h : winB W t1 t <;> simp [List.filter_cons, h]

lemma allowedCount_cons (W t0 t : ℚ) (b : Bool) (results : List (ℚ × Bool)) :
    allowedCount W t0 ((t, b) :: results) =
      (if b && winB W t0 t then 1 else 0) + allowedCount W t0 results := by
  rw [allowedCount, List.filter_cons]
  cases h : (b && winB W t0 t) <;> simp [allowedCount, h, Nat.add_comm]

lemma runCalls_window_bound (user_id limit : ℤ) (W : ℚ) (hW : 0 < W) :
    ∀ (ts : List ℚ) (rl : RateLimiter) (A : List ℚ) (tprev : ℚ),
      List.Chain' (· ≤ ·) (tprev :: ts) →
      (rl.requests user_id).getD [] = A.filter (fun a => decide (tprev - W < a)) →
      (∀ a ∈ A, a ≤ tprev) →
      (∀ t0, (windowCount W t0 A : ℤ) ≤ limit) →
      ∀ t0, (windowCount W t0 A : ℤ) +
        (allowedCount W t0 (runCalls user_id limit W rl ts).2 : ℤ) ≤ limit := by
  intro ts
  induction ts with
  | nil =>
    intro rl A tprev _ _ _ hbound t0
    simpa [runCalls, allowedCount] using hbound t0
  | cons t ts ih =>
    intro rl A tprev hmono hstate hA hbound t0
    have htprev : tprev ≤ t := (List.chain'_cons.1 hmono).1
    have hmono' : List.Chain' (· ≤ ·) (t :: ts) := (List.chain'_cons.1 hmono).2
    have hcur : ((rl.requests user_id).getD []).filter (fun x => decide (t - W < x)) =
        A.filter (fun a => decide (t - W < a)) := by
      rw [hstate, List.filter_filter]
      apply List.filter_congr
      intro a _
      by_cases hta : t - W < a
      · have : tprev - W < a := by linarith
        simp [hta, this]
      · simp [hta]
    have htW : t - W < t := by linarith
    by_cases hallow :
        (((((rl.requests user_id).getD []).filter (fun x => decide (t - W < x))).length : ℤ) < limit)
    · -- allowed call: the timestamp is recorded
      have his : is_allowed rl user_id limit W t =
          (true, rlUpdate rl user_id
            ((((rl.requests user_id).getD []).filter (fun x => decide (t - W < x))) ++ [t])) := by
        rw [is_allowed]
        simp only [if_pos hallow]
      have hrun2 : (runCalls user_id limit W rl (t :: ts)).2 =
          (t, true) ::
            (runCalls user_id limit W
              (rlUpdate rl user_id
                ((((rl.requests user_id).getD []).filter (fun x => decide (t - W < x))) ++ [t]))
              ts).2 := by
        simp only [runCalls, his]
      have hstate' :
          ((rlUpdate rl user_id
              ((((rl.requests user_id).getD []).filter (fun x => decide (t - W < x))) ++ [t])).requests
            user_id).getD [] = (A ++ [t]).filter (fun a => decide (t - W < a)) := by
        simp [rlUpdate, hcur, List.filter_append, htW]
      have hA' : ∀ a ∈ A ++ [t], a ≤ t := by
        intro a ha
        rcases List.mem_append.1 ha with ha | ha
        · exact le_trans (hA a ha) htprev
        · simp only [List.mem_singleton] at ha
          exact le_of_eq ha
      have hallowA : ((A.filter (fun a => decide (t - W < a))).length : ℤ) < limit := by
        rw [← hcur]
        exact hallow
      have hbound' : ∀ t1, (windowCount W t1 (A ++ [t]) : ℤ) ≤ limit := by
        intro t1
        rw [windowCount_append_single]
        cases hwt : winB W t1 t with
        | false => simpa using hbound t1
        | true =>
          have hwt' := hwt
          rw [winB, Bool.and_eq_true, decide_eq_true_eq, decide_eq_true_eq] at hwt'
          have hsub : (A.filter (winB W t1)).length ≤
              (A.filter (fun a => decide (t - W < a))).length := by
            rw [← List.countP_eq_length_filter, ← List.countP_eq_length_filter]
            apply List.countP_mono_left
            intro x _ hx
            rw [winB, Bool.and_eq_true, decide_eq_true_eq, decide_eq_true_eq] at hx
            rw [decide_eq_true_eq]
            linarith [hwt'.2, hx.1]
          rw [windowCount] at *
          simp only [hwt, if_pos]
          push_cast
          omega
      have hrec := ih _ (A ++ [t]) t hmono' hstate' hA' hbound' t0
      rw [hrun2, allowedCount_cons, windowCount_append_single] at *
      cases hwt : winB W t0 t with
      | false =>
        simp only [hwt, Bool.and_false, if_neg] at hrec ⊢
        simpa using hrec
      | true =>
        simp only [hwt, Bool.and_true, if_pos] at hrec ⊢
        push_cast at hrec ⊢
        omega
    · -- rejected call: state keeps only the pruned list
      have his : is_allowed rl user_id limit W t =
          (false, rlUpdate rl user_id
            ((((rl.requests user_id).getD []).filter (fun x => decide (t - W < x))))) := by
        rw [is_allowed]
        simp only [if_neg hallow]
      have hrun2 : (runCalls user_id limit W rl (t :: ts)).2 =
          (t, false) ::
            (runCalls user_id limit W
              (rlUpdate rl user_id
                ((((rl.requests user_id).getD []).filter (fun x => decide (t - W < x)))))
              ts).2 := by
        simp only [runCalls, his]
      have hstate' :
          ((rlUpdate rl user_id
              ((((rl.requests user_id).getD []).filter (fun x => decide (t - W < x))))).requests
            user_id).getD [] = A.filter (fun a => decide (t - W < a)) := by
        simp [rlUpdate, hcur]
      have hA' : ∀ a ∈ A, a ≤ t := fun a ha => le_trans (hA a ha) htprev
      have hrec := ih _ A t hmono' hstate' hA' hbound t0
      rw [hrun2, allowedCount_cons]
      simpa using hrec

/-- C7 counterexample: with a negative `limit` and a user id absent from the
store, `get_remaining_requests` returns the negative limit itself (src/utils.py
line 716 returns `limit` unchecked), so it can return a negative number. -/
theorem c7_counterexample :
    get_remaining_requests RateLimiter.empty 1 (-1) 60 0 = -1 ∧
    get_remaining_requests RateLimiter.empty 1 (-1) 60 0 < 0 := by
  constructor
  · rfl
  · decide

/-- C7 (amended): for every user, every **non-negative** limit and every window
length, among any monotonically clocked sequence of `is_allowed` calls the
`True`-returning calls whose timestamps fall in any half-open window
`(t0 - W, t0]` number at most `limit`; and `get_remaining_requests` is
non-negative whenever the limit is non-negative. -/
theorem c7_amended (user_id limit : ℤ) (W : ℚ) (times : List ℚ) (t0 : ℚ)
    (rl' : RateLimiter) (uid' limit' : ℤ) (W' now' : ℚ)
    (hlimit : 0 ≤ limit) (hlimit' : 0 ≤ limit')
    (hmono : List.Chain' (· ≤ ·) times) :
    (allowedCount W t0 (runCalls user_id limit W RateLimiter.empty times).2 : ℤ) ≤ limit ∧
    0 ≤ get_remaining_requests rl' uid' limit' W' now' := by
  constructor
  · by_cases hW : 0 < W
    · cases times with
      | nil =>
        simpa [runCalls, allowedCount] using hlimit
      | cons t ts =>
        have hmono2 : List.Chain' (· ≤ ·) (t :: t :: ts) :=
          List.chain'_cons.2 ⟨le_refl t, hmono⟩
        have h := runCalls_window_bound user_id limit W hW (t :: ts) RateLimiter.empty [] t
          hmono2 (by simp [RateLimiter.empty]) (by simp)
          (by intro t1; simp [windowCount]; exact hlimit) t0
        simpa [windowCount] using h
    · have hWle : W ≤ 0 := le_of_not_lt hW
      have hzero : allowedCount W t0 (runCalls user_id limit W RateLimiter.empty times).2 = 0 := by
        rw [allowedCount, List.filter_eq_nil_iff.2, List.length_nil]
        intro p _
        rw [winB_nonpos hWle]
        simp
      rw [hzero]
      exact_mod_cast hlimit
  · rw [get_remaining_requests]
    cases h : rl'.requests uid' with
    | none => exact hlimit'
    | some l => exact le_max_left _ _

/-- Witness for `c7_amended` at a concrete input. -/
theorem c7_amended_witness :
    ((0 : ℤ) ≤ 2) ∧ ((0 : ℤ) ≤ 5) ∧
    List.Chain' (· ≤ ·) ([0, 30, 50, 70] : List ℚ) ∧
    ((allowedCount 60 70 (runCalls 1 2 60 RateLimiter.empty ([0, 30, 50, 70] : List ℚ)).2 : ℤ) ≤ 2 ∧
      0 ≤ get_remaining_requests RateLimiter.empty 1 5 60 0) :=
  ⟨by norm_num, by norm_num, by norm_num,
    c7_amended 1 2 60 ([0, 30, 50, 70] : List ℚ) 70 RateLimiter.empty 1 5 60 0
      (by norm_num) (by norm_num) (by norm_num)⟩

/-! ### src/utils.py : sentence ranking -/

/-- Python `str.lower()` (ASCII model). -/
def pyLower (s : Str) : Str := s.map Char.toLower

/-- Accumulator-based splitter behind `pySplitWs`. -/
def splitWsAux : Str → Str → List Str
  | [], acc => if acc = [] then [] else [acc.reverse]
  | c :: cs, acc =>
    if pyIsSpace c then
      if acc = [] then splitWsAux cs [] else acc.reverse :: splitWsAux cs []
    else splitWsAux cs (c :: acc)

/-- Python `str.split()` with no argument: split on whitespace runs, no empty
fields. -/
def pySplitWs (s : Str) : List Str := splitWsAux s []

/-- Python `pat in s` for strings: substring containment. -/
def strContains (s pat : Str) : Bool :=
  (List.range (s.length + 1)).any (fun i => pat.isPrefixOf (s.drop i))

/-- The `importance_keywords` list of `calculate_sentence_importance`
(src/utils.py lines 431-434). -/
def importance_keywords : List Str :=
  ["important".data, "significant".data, "crucial".data, "essential".data, "key".data,
   "main".data, "primary".data, "fundamental".data, "critical".data, "major".data,
   "principal".data, "central".data, "vital".data]

/-- The `definition_indicators` list (src/utils.py line 441). -/
def definition_indicators : List Str :=
  [" is ".data, " are ".data, " means ".data, " refers to ".data,
   " defined as ".data, " known as ".data]

/-- The `causal_words` list (src/utils.py line 451). -/
def causal_words : List Str :=
  ["because".data, "therefore".data, "thus".data, "consequently".data,
   "as a result".data, "due to".data]

/-- Scoring body of `calculate_sentence_importance` applied to the stripped
sentence (src/utils.py lines 413-460).  The word count uses the
`sentence.split()` fallback branch (the embedding models the environment
without NLTK); every score contribution is a multiple of 0.5, so the float
arithmetic of the source is exact and is modelled in `ℚ`. -/
def sentenceScore (s : Str) : ℚ :=
  let word_count := (pySplitWs s).length
  let base : ℚ :=
    if 10 ≤ word_count ∧ word_count ≤ 25 then 2
    else if 8 ≤ word_count ∧ word_count ≤ 30 then 1 else 0
  let kw : ℚ :=
    (3 / 2) * ((importance_keywords.filter (fun k => strContains (pyLower s) k)).length : ℚ)
  let defs : ℚ :=
    ((definition_indicators.filter (fun k => strContains (pyLower s) k)).length : ℚ)
  let nums : ℚ := if s.any Char.isDigit then 1 / 2 else 0
  let causal : ℚ :=
    ((causal_words.filter (fun k => strContains (pyLower s) k)).length : ℚ)
  let penalty : ℚ := if word_count < 5 ∨ 40 < word_count then 1 else 0
  max 0 (base + kw + defs + nums + causal - penalty)

/-- src/utils.py lines 408-460, `calculate_sentence_importance`. -/
def calculate_sentence_importance (sentence : Str) : ℚ :=
  if sentence = [] ∨ pyStrip sentence = [] then 0
  else sentenceScore (pyStrip sentence)

/-- The `scored_sentences` list built by `rank_sentences_by_importance`
(src/utils.py lines 396-401): skip whitespace-only sentences, pair each
stripped sentence with the score of the original sentence. -/
def scoredSentences (sentences : List Str) : List (Str × ℚ) :=
  sentences.filterMap
    (fun s => if pyStrip s = [] then none
              else some (pyStrip s, calculate_sentence_importance s))

/-- src/utils.py lines 391-406, `rank_sentences_by_importance`:
sort the scored pairs by score, highest first (Python's stable sort with
`reverse=True`), and return the sentences. -/
def rank_sentences_by_importance (sentences : List Str) : List Str :=
  ((scoredSentences sentences).mergeSort (fun a b => decide (b.2 ≤ a.2))).map Prod.fst

lemma pyStrip_idem (s : Str) : pyStrip (pyStrip s) = pyStrip s :=
  pyStrip_eq_self (noEdgeWs_pyStrip s)

lemma calc_strip (s : Str) :
    calculate_sentence_importance (pyStrip s) = calculate_sentence_importance s := by
  unfold calculate_sentence_importance
  rw [pyStrip_idem]
  by_cases h : pyStrip s = []
  · simp [h]
  · have hs0 : s ≠ [] := fun h1 => h (by simp [h1, pyStrip])
    simp [h, hs0]

lemma scored_snd {p : Str × ℚ} {sentences : List Str}
    (hp : p ∈ scoredSentences sentences) : p.2 = calculate_sentence_importance p.1 := by
  rw [scoredSentences, List.mem_filterMap] at hp
  obtain ⟨s, _, hs⟩ := hp
  by_cases h : pyStrip s = []
  · rw [if_pos h] at hs
    exact absurd hs (by simp)
  · rw [if_neg h] at hs
    cases hs
    exact (calc_strip s).symm

lemma scored_map_fst (sentences : List Str) :
    (scoredSentences sentences).map Prod.fst =
      (sentences.filter (fun s => !(pyStrip s).isEmpty)).map pyStrip := by
  induction sentences with
  | nil => rfl
  | cons a l ih =>
    rw [scoredSentences, List.filterMap_cons, List.filter_cons]
    by_cases h : pyStrip a = []
    · rw [if_pos h]
      rw [show (!(pyStrip a).isEmpty) = false by simp [h]]
      rw [if_neg (by simp)]
      exact ih
    · rw [if_neg h]
      rw [show (!(pyStrip a).isEmpty) = true by simp [List.isEmpty_iff, h]]
      rw [if_pos rfl, List.map_cons, List.map_cons]
      exact congrArg _ ih

/-- C8: sentence ranking is a sorted filtering of its input — the output is a
permutation of the stripped non-whitespace sentences, ordered by non-increasing
`calculate_sentence_importance` score, and the empty input yields the empty
list. -/
theorem c8_rank_sentences (sentences : List Str) :
    rank_sentences_by_importance [] = [] ∧
    (rank_sentences_by_importance sentences).Perm
      ((sentences.filter (fun s => !(pyStrip s).isEmpty)).map pyStrip) ∧
    (rank_sentences_by_importance sentences).Pairwise
      (fun a b => calculate_sentence_importance b ≤ calculate_sentence_importance a) := by
  refine ⟨by simp [rank_sentences_by_importance, scoredSentences], ?_, ?_⟩
  · rw [rank_sentences_by_importance, ← scored_map_fst]
    exact (List.mergeSort_perm (scoredSentences sentences) _).map Prod.fst
  · rw [rank_sentences_by_importance, List.pairwise_map]
    have htrans : ∀ (a b c : Str × ℚ),
        (fun a b => decide (b.2 ≤ a.2)) a b → (fun a b => decide (b.2 ≤ a.2)) b c →
          (fun a b => decide (b.2 ≤ a.2)) a c := by
      intro a b c hab hbc
      simp only [decide_eq_true_eq] at *
      exact le_trans hbc hab
    have htotal : ∀ (a b : Str × ℚ),
        ((fun a b => decide (b.2 ≤ a.2)) a b || (fun a b => decide (b.2 ≤ a.2)) b a) = true := by
      intro a b
      simp only [Bool.or_eq_true, decide_eq_true_eq]
      exact le_total b.2 a.2
    have hpw := @List.sorted_mergeSort (Str × ℚ) (fun a b => decide (b.2 ≤ a.2))
      htrans htotal (scoredSentences sentences)
    apply List.Pairwise.imp_of_mem ?_ hpw
    intro a b ha hb hab
    have ha' : a ∈ scoredSentences sentences :=
      (List.mergeSort_perm (scoredSentences sentences)
        (fun a b => decide (b.2 ≤ a.2))).mem_iff.1 ha
    have hb' : b ∈ scoredSentences sentences :=
      (List.mergeSort_perm (scoredSentences sentences)
        (fun a b => decide (b.2 ≤ a.2))).mem_iff.1 hb
    rw [← scored_snd ha', ← scored_snd hb']
    simpa using hab

/-! ### src/app.py : Flask route handlers -/

/-- HTTP response: status code plus the JSON `error` field (absent on
success responses). -/
structure Response where
  status : ℕ
  error : Option Str
  deriving DecidableEq, Repr

/-- `users` table row (src/models.py lines 7-20). -/
structure UserRow where
  id : ℤ
  email : Str
  password_hash : Str
  deriving DecidableEq, Repr

/-- `conversations` table row (src/models.py lines 22-32). -/
structure ConvRow where
  id : ℤ
  user_id : ℤ
  title : Str
  deriving DecidableEq, Repr

/-- `messages` table row (src/models.py lines 34-46). -/
structure MsgRow where
  conversation_id : ℤ
  content : Str
  is_user : Bool
  deriving DecidableEq, Repr

/-- Database state restricted to the tables the embedded handlers touch. -/
structure DB where
  users : List UserRow
  conversations : List ConvRow
  messages : List MsgRow
  deriving DecidableEq, Repr

/-- External effects used by the handlers, as total oracles:
`werkzeug` password hashing, JWT token creation, and the AI chat reply
(`handle_user_request`, which catches its own exceptions and returns a dict). -/
structure Ext where
  hashPassword : Str → Str
  createToken : ℤ → Str
  aiReply : Str → Str

/-- Fresh primary key for `conversations`. -/
def nextConvId (db : DB) : ℤ := (db.conversations.map ConvRow.id).foldr max 0 + 1

/-- Fresh primary key for `users`. -/
def nextUserId (db : DB) : ℤ := (db.users.map UserRow.id).foldr max 0 + 1

/-- src/models.py lines 220-228, `create_conversation`. -/
def create_conversation (user_id : ℤ) (title : Str) (db : DB) : ConvRow × DB :=
  let conv : ConvRow := ⟨nextConvId db, user_id, title⟩
  (conv, { db with conversations := db.conversations ++ [conv] })

/-- src/models.py lines 230-240, `add_message`. -/
def add_message (conversation_id : ℤ) (content : Str) (is_user : Bool) (db : DB) :
    MsgRow × DB :=
  let m : MsgRow := ⟨conversation_id, content, is_user⟩
  (m, { db with messages := db.messages ++ [m] })

/-- JSON body of a signup request; `none` fields model absent keys. -/
structure SignupReq where
  email : Option Str
  password : Option Str
  deriving DecidableEq, Repr

/-- JSON body of a chat-send request. -/
structure ChatReq where
  message : Option Str
  conversation_id : Option ℤ
  deriving DecidableEq, Repr

/-- Python truthiness test for an optional string (`not email`). -/
def isFalsyStr : Option Str → Bool
  | none => true
  | some s => s.isEmpty

/-- The exception raised when `request.get_json()` returned `None` and the
handler calls `.get` on it. -/
def attributeErrorNone : Str :=
  "AttributeError: NoneType object has no attribute get".data

/-- `except Exception as e: return jsonify({\x7berror\x7d: str(e)}), 500` —
the shared tail of every route handler in src/app.py. -/
def tryExcept500 (body : Except (Str × DB) (Response × DB)) : Response × DB :=
  match body with
  | .ok r => r
  | .error (e, db) => (⟨500, some e⟩, db)

/-- src/app.py lines 80-123, the `try` body of the `signup` handler:
400 when email or password is falsy, 409 when the email already exists,
otherwise insert the user, mint a token and create the welcome
conversation. -/
def signupBody (ext : Ext) (reqJson : Option SignupReq) (db : DB) :
    Except (Str × DB) (Response × DB) :=
  match reqJson with
  | none => .error (attributeErrorNone, db)
  | some data =>
    if isFalsyStr data.email || isFalsyStr data.password then
      .ok (⟨400, some "Email and password required".data⟩, db)
    else if db.users.any (fun u => u.email == data.email.getD []) then
      .ok (⟨409, some "User already exists".data⟩, db)
    else
      let user : UserRow :=
        ⟨nextUserId db, data.email.getD [], ext.hashPassword (data.password.getD [])⟩
      let db1 := { db with users := db.users ++ [user] }
      let _access_token := ext.createToken user.id
      let conv := create_conversation user.id "Welcome Chat".data db1
      .ok (⟨201, none⟩, conv.2)

/-- The `signup` route: body wrapped in catch-and-JSON-500. -/
def signup (ext : Ext) (reqJson : Option SignupReq) (db : DB) : Response × DB :=
  tryExcept500 (signupBody ext reqJson db)

/-- Tail of `send_chat_message` after the conversation is resolved
(src/app.py lines 259-318): store the user message, obtain the AI response and
store it, then answer 200. -/
def finishChat (ext : Ext) (conversation_id : ℤ) (content : Str) (db : DB) :
    Except (Str × DB) (Response × DB) :=
  let db1 := (add_message conversation_id content true db).2
  let reply := ext.aiReply content
  let db2 := (add_message conversation_id reply false db1).2
  .ok (⟨200, none⟩, db2)

/-- src/app.py lines 235-321, the `try` body of `send_chat_message`:
400 on an empty (stripped) message; a falsy `conversation_id` (absent or `0`)
creates a fresh conversation; otherwise the conversation must belong to the
authenticated user or the handler answers 404. -/
def sendChatBody (ext : Ext) (user_id : ℤ) (reqJson : Option ChatReq) (db : DB) :
    Except (Str × DB) (Response × DB) :=
  match reqJson with
  | none => .error (attributeErrorNone, db)
  | some data =>
    let message_content := pyStrip (data.message.getD [])
    if message_content = [] then
      .ok (⟨400, some "Message cannot be empty".data⟩, db)
    else
      let useNew := match data.conversation_id with
        | none => true
        | some n => n == 0
      if useNew then
        let title := if 50 < message_content.length
          then message_content.take 50 ++ "...".data else message_content
        let r := create_conversation user_id title db
        finishChat ext r.1.id message_content r.2
      else
        let cid := data.conversation_id.getD 0
        match db.conversations.find? (fun c => c.id == cid && c.user_id == user_id) with
        | none => .ok (⟨404, some "Conversation not found".data⟩, db)
        | some conv => finishChat ext conv.id message_content db

/-- The `send_chat_message` route: body wrapped in catch-and-JSON-500. -/
def send_chat_message (ext : Ext) (user_id : ℤ) (reqJson : Option ChatReq) (db : DB) :
    Response × DB :=
  tryExcept500 (sendChatBody ext user_id reqJson db)

/-- src/app.py lines 197-233, the `try` body of `get_conversation_detail`:
404 unless a conversation with the given id belongs to the authenticated user;
the handler only reads. -/
def getConvDetailBody (user_id conversation_id : ℤ) (db : DB) :
    Except (Str × DB) (Response × DB) :=
  match db.conversations.find? (fun c => c.id == conversation_id && c.user_id == user_id) with
  | none => .ok (⟨404, some "Conversation not found".data⟩, db)
  | some _ => .ok (⟨200, none⟩, db)

/-- The `get_conversation_detail` route: body wrapped in catch-and-JSON-500. -/
def get_conversation_detail (user_id conversation_id : ℤ) (db : DB) : Response × DB :=
  tryExcept500 (getConvDetailBody user_id conversation_id db)

/-- src/app.py lines 1008-1010, the flask `errorhandler(500)`. -/
def internal_error : Response := ⟨500, some "Internal server error".data⟩

/-- A concrete oracle instance used by witnesses. -/
def extConst : Ext :=
  ⟨fun s => s, fun _ => "token".data, fun _ => "reply".data⟩

/-- C3: the route handlers wrap their bodies in catch-and-JSON-500 — whenever
the body of `signup` or of `send_chat_message` raises, the route responds with
status 500 and a JSON `error` field carrying the exception text (and the
generic flask 500 handler also produces a JSON error). -/
theorem c3_catch_json_500 (ext : Ext) (req1 : Option SignupReq) (db1 : DB)
    (uid : ℤ) (req2 : Option ChatReq) (db2 : DB) (e1 e2 : Str) (db1' db2' : DB)
    (h1 : signupBody ext req1 db1 = .error (e1, db1'))
    (h2 : sendChatBody ext uid req2 db2 = .error (e2, db2')) :
    signup ext req1 db1 = (⟨500, some e1⟩, db1') ∧
    send_chat_message ext uid req2 db2 = (⟨500, some e2⟩, db2') ∧
    internal_error.status = 500 ∧ internal_error.error = some "Internal server error".data := by
  refine ⟨?_, ?_, rfl, rfl⟩
  · rw [signup, h1, tryExcept500]
  · rw [send_chat_message, h2, tryExcept500]

/-- Witness for `c3_catch_json_500`: a request with no JSON body makes both
handler bodies raise `AttributeError`, and both routes answer 500. -/
theorem c3_catch_json_500_witness :
    signupBody extConst none ⟨[], [], []⟩ = .error (attributeErrorNone, ⟨[], [], []⟩) ∧
    sendChatBody extConst 1 none ⟨[], [], []⟩ = .error (attributeErrorNone, ⟨[], [], []⟩) ∧
    (signup extConst none ⟨[], [], []⟩ = (⟨500, some attributeErrorNone⟩, ⟨[], [], []⟩) ∧
      send_chat_message extConst 1 none ⟨[], [], []⟩ =
        (⟨500, some attributeErrorNone⟩, ⟨[], [], []⟩) ∧
      internal_error.status = 500 ∧
      internal_error.error = some "Internal server error".data) :=
  ⟨rfl, rfl, c3_catch_json_500 extConst none ⟨[], [], []⟩ 1 none ⟨[], [], []⟩
    attributeErrorNone attributeErrorNone ⟨[], [], []⟩ ⟨[], [], []⟩ rfl rfl⟩

/-- C4 counterexample: a signup request whose email already belongs to a
stored user but whose password is empty answers 400
(`Email and password required`), not the claimed 409 — the falsy-field check
at src/app.py line 88 runs before the duplicate-email check. -/
theorem c4_counterexample :
    ((⟨[⟨1, "a@b.c".data, "h".data⟩], [], []⟩ : DB).users.any
        (fun u => u.email == "a@b.c".data) = true) ∧
    signup extConst (some ⟨some "a@b.c".data, some ([] : Str)⟩)
        ⟨[⟨1, "a@b.c".data, "h".data⟩], [], []⟩ =
      (⟨400, some "Email and password required".data⟩,
        ⟨[⟨1, "a@b.c".data, "h".data⟩], [], []⟩) ∧
    (400 : ℕ) ≠ 409 := by
  refine ⟨by decide, ?_, by decide⟩
  rfl

/-- C4 (amended): a signup request with non-empty email and password whose
email already belongs to a stored user answers 409 with a JSON error and
leaves the database — users and conversations included — unchanged. -/
theorem c4_amended (ext : Ext) (db : DB) (e p : Str)
    (he : e ≠ []) (hp : p ≠ [])
    (hex : db.users.any (fun u => u.email == e) = true) :
    signup ext (some ⟨some e, some p⟩) db =
      (⟨409, some "User already exists".data⟩, db) := by
  rw [signup, signupBody]
  have h1 : isFalsyStr (some e) = false := by
    simp [isFalsyStr, List.isEmpty_iff, he]
  have h2 : isFalsyStr (some p) = false := by
    simp [isFalsyStr, List.isEmpty_iff, hp]
  simp only [h1, h2, Bool.or_self, Bool.false_eq_true, if_neg, not_false_eq_true,
    Option.getD_some, hex, if_pos]
  rfl

/-- Witness for `c4_amended` at a concrete store. -/
theorem c4_amended_witness :
    ("a@b.c".data ≠ ([] : Str)) ∧ ("pw".data ≠ ([] : Str)) ∧
    ((⟨[⟨1, "a@b.c".data, "h".data⟩], [], []⟩ : DB).users.any
        (fun u => u.email == "a@b.c".data) = true) ∧
    signup extConst (some ⟨some "a@b.c".data, some "pw".data⟩)
        ⟨[⟨1, "a@b.c".data, "h".data⟩], [], []⟩ =
      (⟨409, some "User already exists".data⟩, ⟨[⟨1, "a@b.c".data, "h".data⟩], [], []⟩) :=
  ⟨by decide, by decide, by decide,
    c4_amended extConst ⟨[⟨1, "a@b.c".data, "h".data⟩], [], []⟩
      "a@b.c".data "pw".data (by decide) (by decide) (by decide)⟩

/-- C6 counterexample: a POST to `/api/chat/send` whose message is empty and
whose `conversation_id` names another user's conversation answers 400
(`Message cannot be empty`), not the claimed 404 — the emptiness check runs
before the ownership check. -/
theorem c6_counterexample :
    (send_chat_message extConst 1 (some ⟨some [], some 5⟩)
        ⟨[⟨1, "a@b.c".data, "h".data⟩, ⟨2, "d@e.f".data, "h".data⟩],
          [⟨5, 2, "other".data⟩], []⟩).1.status = 400 ∧
    (send_chat_message extConst 1 (some ⟨some [], some 5⟩)
        ⟨[⟨1, "a@b.c".data, "h".data⟩, ⟨2, "d@e.f".data, "h".data⟩],
          [⟨5, 2, "other".data⟩], []⟩).1 ≠
      ⟨404, some "Conversation not found".data⟩ := by
  constructor
  · rfl
  · decide

/-- C6 (amended): for a GET of a conversation the requester does not own the
endpoint answers 404 `Conversation not found` with the database unchanged;
for a POST with a **non-empty** message and a **non-zero** conversation id the
requester does not own, likewise 404 with the database unchanged. -/
theorem c6_amended (ext : Ext) (user_id cid : ℤ) (msg : Option Str) (db : DB)
    (hcid : (cid == 0) = false)
    (hmsg : pyStrip (msg.getD []) ≠ [])
    (hown : db.conversations.all (fun c => !(c.id == cid && c.user_id == user_id)) = true) :
    send_chat_message ext user_id (some ⟨msg, some cid⟩) db =
      (⟨404, some "Conversation not found".data⟩, db) ∧
    get_conversation_detail user_id cid db =
      (⟨404, some "Conversation not found".data⟩, db) := by
  have hfind : db.conversations.find? (fun c => c.id == cid && c.user_id == user_id) = none := by
    rw [List.find?_eq_none]
    intro c hc
    have := (List.all_eq_true.1 hown) c hc
    simp only [Bool.not_eq_true'] at this
    simp [this]
  constructor
  · rw [send_chat_message, sendChatBody]
    simp only [Option.getD_some, if_neg hmsg, hcid]
    rw [hfind]
    rfl
  · rw [get_conversation_detail, getConvDetailBody, hfind]
    rfl

/-- Witness for `c6_amended` at a concrete store. -/
theorem c6_amended_witness :
    ((5 : ℤ) == 0) = false ∧
    (pyStrip ((some "hello".data : Option Str).getD []) ≠ []) ∧
    ((⟨[], [⟨5, 2, "other".data⟩], []⟩ : DB).conversations.all
        (fun c => !(c.id == 5 && c.user_id == 1)) = true) ∧
    (send_chat_message extConst 1 (some ⟨some "hello".data, some 5⟩)
        ⟨[], [⟨5, 2, "other".data⟩], []⟩ =
      (⟨404, some "Conversation not found".data⟩, ⟨[], [⟨5, 2, "other".data⟩], []⟩) ∧
    get_conversation_detail 1 5 ⟨[], [⟨5, 2, "other".data⟩], []⟩ =
      (⟨404, some "Conversation not found".data⟩, ⟨[], [⟨5, 2, "other".data⟩], []⟩)) :=
  ⟨by decide, by decide, by decide,
    c6_amended extConst 1 5 (some "hello".data) ⟨[], [⟨5, 2, "other".data⟩], []⟩
      (by decide) (by decide) (by decide)⟩

instance {ε α : Type} [DecidableEq ε] [DecidableEq α] : DecidableEq (Except ε α) :=
  fun a b =>
    match a, b with
    | .error e, .error f =>
      if h : e = f then .isTrue (by rw [h])
      else .isFalse (by intro hc; cases hc; exact h rfl)
    | .ok x, .ok y =>
      if h : x = y then .isTrue (by rw [h])
      else .isFalse (by intro hc; cases hc; exact h rfl)
    | .error _, .ok _ => .isFalse (by intro hc; cases hc)
    | .ok _, .error _ => .isFalse (by intro hc; cases hc)

/-! ### src/backend/ai_service.py : the AIService class

The file is truncated: it references `HAS_NLTK`/`HAS_SPACY` (never defined, so
`initialize_nlp_tools` always lands in its `except` branch: `self.nlp = None`,
`self.stop_words = set()`), and several helper methods are called but missing
(`extract_definition`, `create_question_from_sentence`, and six question
generators).  The missing helpers are modelled from the spec below; everything
else is embedded from the file. -/

namespace Backend

/-- Python regex `\w` (ASCII model): letters, digits, underscore. -/
def pyIsWordChar (c : Char) : Bool := c.isAlpha || c.isDigit || c = '_'

/-- Accumulating scanner behind `wordRuns`. -/
def wordRunsAux : Str → Str → List Str
  | [], acc => if acc = [] then [] else [acc.reverse]
  | c :: cs, acc =>
    if pyIsWordChar c then wordRunsAux cs (c :: acc)
    else if acc = [] then wordRunsAux cs [] else acc.reverse :: wordRunsAux cs []

/-- Maximal runs of word characters: `\b`-delimited words. -/
def wordRuns (s : Str) : List Str := wordRunsAux s []

/-- A word matching `[A-Z][a-z]+` in full. -/
def isCapWord : Str → Bool
  | [] => false
  | c :: rest => c.isUpper && !rest.isEmpty && rest.all Char.isLower

/-- A word matching `[a-z]{6,}` in full. -/
def isLongLowerWord (w : Str) : Bool := decide (6 ≤ w.length) && w.all Char.isLower

/-- Order-preserving deduplication, `list(dict.fromkeys(...))`. -/
def dedupAux : List Str → List Str → List Str
  | [], _ => []
  | x :: xs, seen => if x ∈ seen then dedupAux xs seen else x :: dedupAux xs (x :: seen)

def pyDedup (l : List Str) : List Str := dedupAux l []

/-- src/backend/ai_service.py lines 684-700, `extract_concepts_simple`
(`self.stop_words` is the empty set in every run of this file, so the
stop-word test always passes). -/
def extract_concepts_simple (content : Str) : List Str :=
  let capitalized := (wordRuns content).filter isCapWord
  let long_words := (wordRuns content).filter isLongLowerWord
  let all_words := capitalized ++ long_words
  let filtered_words := all_words.filter (fun w => decide (3 < w.length))
  (pyDedup filtered_words).take 15

/-- src/backend/ai_service.py lines 620-657, `extract_key_concepts` as it
executes in this file: `self.nlp` is `None`, the NLTK branch raises
`NameError` on the undefined `HAS_NLTK`, and the surrounding `except` falls
back to `extract_concepts_simple`. -/
def extract_key_concepts (content : Str) : List Str :=
  if content = [] then [] else extract_concepts_simple content

/-- Characters kept by `re.sub` with the class `[^\w\s.,!?;:()\-\x27\x22\x22]`
in `preprocess_content` (line 598). -/
def keepPre (c : Char) : Bool :=
  pyIsWordChar c || pyIsSpace c ||
  c = '.' || c = ',' || c = '!' || c = '?' || c = ';' || c = ':' ||
  c = '(' || c = ')' || c = '-' || c = Char.ofNat 39 || c = '"'

/-- src/backend/ai_service.py lines 591-618, `preprocess_content`: collapse
whitespace on the stripped content and delete characters outside the kept
class; when more than 1500 characters remain the code evaluates the undefined
name `HAS_NLTK` and raises `NameError`; otherwise it returns the stripped
text. -/
def preprocess_content (content : Str) : Except PyErr Str :=
  if content = [] then .ok []
  else
    let c1 := collapseWs (pyStrip content)
    let c2 := c1.filter keepPre
    if 1500 < c2.length then .error .nameError
    else .ok (pyStrip c2)

/-- Python list indexing with an integer index (negative indices count from
the end); `IndexError` when out of range. -/
def pyGet {α : Type} (l : List α) (i : ℤ) : Except PyErr α :=
  if h : 0 ≤ i ∧ i.toNat < l.length then .ok (l.get ⟨i.toNat, h.2⟩)
  else if h2 : i < 0 ∧ (i + l.length).toNat < l.length ∧ 0 ≤ i + l.length then
    .ok (l.get ⟨(i + l.length).toNat, h2.2.1⟩)
  else .error .indexError

/-- Python `list.index`: position of the first occurrence, `ValueError` when
absent. -/
def pyIndexAux {α : Type} [BEq α] : List α → α → ℕ → Except PyErr ℕ
  | [], _, _ => .error .valueError
  | x :: xs, a, n => if x == a then .ok n else pyIndexAux xs a (n + 1)

def pyIndex {α : Type} [BEq α] (l : List α) (a : α) : Except PyErr ℕ := pyIndexAux l a 0

/-- The global `random` module state: a stream of raw draws and the current
position; `randbelow n` consumes one draw reduced modulo `n`. -/
structure Rng where
  src : ℕ → ℕ
  idx : ℕ

def randbelow (n : ℕ) (r : Rng) : ℕ × Rng := (r.src r.idx % n, ⟨r.src, r.idx + 1⟩)

/-- Swap two positions of a list (no-op when either index is out of range). -/
def listSwap {α : Type} (l : List α) (i j : ℕ) : List α :=
  match l.get? i, l.get? j with
  | some a, some b => (l.set i b).set j a
  | _, _ => l

/-- CPython `random.shuffle`: for `i` in `reversed(range(1, len(x)))`, draw
`j = randbelow(i + 1)` and swap positions `i` and `j`. -/
def pyShuffle {α : Type} (l : List α) (r : Rng) : List α × Rng :=
  (List.range' 1 (l.length - 1)).reverse.foldl
    (fun acc i =>
      let jr := randbelow (i + 1) acc.2
      (listSwap acc.1 i jr.1, jr.2))
    (l, r)

/-- A flashcard dict `{question, answer}`. -/
structure Card where
  question : Str
  answer : Str
  deriving DecidableEq, Repr

/-- A quiz-question dict `{question, options, correct_answer}`. -/
structure Question where
  question : Str
  options : List Str
  correct_answer : ℤ
  deriving DecidableEq, Repr

/-- Oracle parameters of `AIService`: the configured API key, the nltk
`sent_tokenize` tokenizer, and the two Hugging Face generation helpers
(`generate_flashcards_huggingface` / `generate_questions_huggingface`), which
are dominated by external HTTP calls and are abstracted as fallible
oracles. -/
structure AIEnv where
  huggingface_api_key : Str
  sent_tokenize : Str → List Str
  hfFlashcards : Str → Str → Str → ℕ → Except PyErr (List Card)
  hfQuestions : Str → Str → Str → ℕ → Except PyErr (List Question)

/-- Python `max(relevant_sentences, key=len)`: first element of maximal
length. -/
def pyMaxByLen : List Str → Str
  | [] => []
  | x :: xs => xs.foldl (fun acc s => if acc.length < s.length then s else acc) x

/-- src/backend/ai_service.py lines 702-721, `generate_contextual_answer`
(any difficulty other than beginner/intermediate takes the advanced
template). -/
def generate_contextual_answer (env : AIEnv) (concept topic content difficulty : Str) : Str :=
  let sentences := env.sent_tokenize content
  let relevant := sentences.filter (fun s => strContains (pyLower s) (pyLower concept))
  if relevant ≠ [] then
    let base := pyMaxByLen relevant
    if difficulty = "beginner".data then
      concept ++ " refers to ".data ++ pyLower base
    else if difficulty = "intermediate".data then
      concept ++ " is an important aspect of ".data ++ topic ++ ". ".data ++ base ++
        " This concept helps in understanding the broader principles of ".data ++
        topic ++ ".".data
    else
      concept ++ " represents a complex element within ".data ++ topic ++ ". ".data ++ base ++
        " Understanding ".data ++ concept ++
        " is crucial for mastering advanced applications and theoretical frameworks in ".data ++
        topic ++ ".".data
  else
    concept ++ " is a key concept in ".data ++ topic ++
      " that plays an important role in understanding the fundamental principles and applications within this field.".data

/-- The indicator-word list of the backend sentence ranker (line 831). -/
def indicator_words : List Str :=
  ["because".data, "therefore".data, "however".data, "important".data,
   "significant".data, "main".data, "primary".data]

/-- Integer score of one sentence (src/backend/ai_service.py lines 812-836). -/
def sentenceScoreB (topic sentence : Str) : ℤ :=
  let length := (pySplitWs sentence).length
  let base : ℤ :=
    if 10 ≤ length ∧ length ≤ 25 then 2
    else if 8 ≤ length ∧ length ≤ 30 then 1 else 0
  let topicScore : ℤ := if strContains (pyLower sentence) (pyLower topic) then 3 else 0
  let numScore : ℤ := if sentence.any Char.isDigit then 1 else 0
  let ind : ℤ :=
    ((indicator_words.filter (fun w => strContains (pyLower sentence) w)).length : ℤ)
  base + topicScore + numScore + ind

/-- src/backend/ai_service.py lines 808-840, the service's own
`rank_sentences_by_importance` (all sentences, sorted by score descending with
Python's stable sort). -/
def rank_sentences_by_importance (sentences : List Str) (topic : Str) : List Str :=
  ((sentences.map (fun s => (s, sentenceScoreB topic s))).mergeSort
    (fun a b => decide (b.2 ≤ a.2))).map Prod.fst

/-- src/backend/ai_service.py lines 795-806, `enhance_answer_quality`. -/
def enhance_answer_quality (answer : Str) (difficulty : Str) : Str :=
  if difficulty = "beginner".data then
    if 100 < answer.length then answer.take 100 ++ "...".data else answer
  else if difficulty = "advanced".data then
    if answer.length < 50 then
      answer ++
        " This concept involves multiple interconnected elements that require deeper understanding and analysis.".data
    else answer
  else answer

/-- src/backend/ai_service.py lines 723-755, `validate_flashcards`. -/
def validate_flashcards (cards : List Card) (difficulty : Str) : List Card :=
  cards.filterMap (fun card =>
    if card.question = [] || card.answer = [] then none
    else
      let q := pyStrip card.question
      let a := pyStrip card.answer
      if q.length < 10 || a.length < 15 then none
      else if pyLower q = pyLower a then none
      else
        let q2 := if q.getLast? = some '?' then q else q ++ "?".data
        some ⟨q2, enhance_answer_quality a difficulty⟩)

/-- src/backend/ai_service.py lines 757-793, `validate_questions` (in the
typed embedding the three dict keys are always present). -/
def validate_questions (questions : List Question) (_difficulty : Str) : List Question :=
  questions.filterMap (fun q =>
    if q.options.length ≠ 4 then none
    else if ¬(0 ≤ q.correct_answer ∧ q.correct_answer < 4) then none
    else
      let qt := pyStrip q.question
      let opts := q.options.map pyStrip
      if qt.length < 10 then none
      else if opts.any (fun o => decide (o.length < 3)) then none
      else
        let qt2 := if qt.getLast? = some '?' then qt else qt ++ "?".data
        some ⟨qt2, opts, q.correct_answer⟩)

/-- The flashcard template dictionary of `generate_flashcards_fallback`
(src/backend/ai_service.py lines 423-445). -/
def flashcard_templates : List (Str × List Str) :=
  [("beginner".data,
    ["What is {concept}?".data,
     "Define {concept}.".data,
     "What does {concept} mean in the context of {topic}?".data,
     "Explain {concept} in simple terms.".data,
     "What is the purpose of {concept}?".data]),
   ("intermediate".data,
    ["How does {concept} relate to {topic}?".data,
     "What are the key features of {concept}?".data,
     "Why is {concept} important in {topic}?".data,
     "What are the main components of {concept}?".data,
     "How would you explain {concept} to someone learning {topic}?".data]),
   ("advanced".data,
    ["Analyze the relationship between {concept} and other elements in {topic}.".data,
     "Evaluate the significance of {concept} in the broader context of {topic}.".data,
     "What are the implications of {concept} for understanding {topic}?".data,
     "How might {concept} be applied in real-world scenarios related to {topic}?".data,
     "Compare and contrast {concept} with related concepts in {topic}.".data])]

/-- Dict lookup in an association list. -/
def assocLookup (l : List (Str × List Str)) (k : Str) : Option (List Str) :=
  (l.find? (fun p => p.1 == k)).map Prod.snd

/-- Single-pass `str.format` restricted to the `{concept}` and `{topic}`
placeholders that occur in the templates (fuel-driven scanner; the fuel starts
at the text length, and every step consumes at least one character). -/
def pyFormatAux (concept topic : Str) : ℕ → Str → Str
  | 0, s => s
  | _ + 1, [] => []
  | fuel + 1, c :: cs =>
    if "{concept}".data.isPrefixOf (c :: cs) then
      concept ++ pyFormatAux concept topic fuel ((c :: cs).drop 9)
    else if "{topic}".data.isPrefixOf (c :: cs) then
      topic ++ pyFormatAux concept topic fuel ((c :: cs).drop 7)
    else c :: pyFormatAux concept topic fuel cs

def pyFormat (t concept topic : Str) : Str := pyFormatAux concept topic t.length t

/-- Modelled from the spec: `create_question_from_sentence` is called at
src/backend/ai_service.py line 474 but missing from the truncated file.  The
spec describes the fallback as a template-filling generator over ranked
sentences, so the model fills a fixed question/answer template with the
sentence and topic. -/
def create_question_from_sentence (sentence topic _difficulty : Str) : Str × Str :=
  ("What does the following statement describe in ".data ++ topic ++ "? ".data ++ sentence,
   sentence ++ " This statement is part of the study material on ".data ++ topic ++ ".".data)

/-- Resolution of the `key_concepts` default in `generate_flashcards_fallback`
(line 419: `if not key_concepts`, i.e. `None` or an empty list recomputes). -/
def resolvedKc (content : Str) (key_concepts : Option (List Str)) : List Str :=
  match key_concepts with
  | none => extract_key_concepts content
  | some k => if k = [] then extract_key_concepts content else k

/-- First loop of `generate_flashcards_fallback` (src/backend/ai_service.py
lines 447-465): one flashcard per not-yet-used key concept; the template
dictionary is indexed with the difficulty inside the loop body. -/
def fbLoop1 (env : AIEnv) (content topic difficulty : Str) (kc : List Str) :
    List ℕ → List Card → List Str → Except PyErr (List Card × List Str)
  | [], cards, used => .ok (cards, used)
  | i :: is, cards, used =>
    match pyGet kc (i : ℤ) with
    | .error e => .error e
    | .ok concept =>
      if concept ∈ used then
        fbLoop1 env content topic difficulty kc is cards used
      else
        match assocLookup flashcard_templates difficulty with
        | none => .error (.keyError difficulty)
        | some tlist =>
          match pyGet tlist ((i % tlist.length : ℕ) : ℤ) with
          | .error e => .error e
          | .ok template =>
            let question := pyFormat template concept topic
            let answer := generate_contextual_answer env concept topic content difficulty
            fbLoop1 env content topic difficulty kc is
              (cards ++ [⟨question, answer⟩]) (concept :: used)

/-- Second loop of `generate_flashcards_fallback` (lines 467-479): fill the
remaining slots from the ranked sentences; the Python index
`i - len(key_concepts)` is a signed index. -/
def fbLoop2 (kc_len : ℕ) (important : List Str) (topic difficulty : Str) :
    List ℕ → List Card → Except PyErr (List Card)
  | [], cards => .ok cards
  | i :: is, cards =>
    if ((i : ℤ) - (kc_len : ℤ)) < (important.length : ℤ) then
      match pyGet important ((i : ℤ) - (kc_len : ℤ)) with
      | .error e => .error e
      | .ok sentence =>
        let qa := create_question_from_sentence sentence topic difficulty
        if qa.1 ≠ [] ∧ qa.2 ≠ [] then
          fbLoop2 kc_len important topic difficulty is (cards ++ [⟨qa.1, qa.2⟩])
        else
          fbLoop2 kc_len important topic difficulty is cards
    else
      fbLoop2 kc_len important topic difficulty is cards

/-- src/backend/ai_service.py lines 415-481, `generate_flashcards_fallback`. -/
def generate_flashcards_fallback (env : AIEnv) (content topic difficulty : Str)
    (count : ℕ) (key_concepts : Option (List Str)) : Except PyErr (List Card) :=
  let kc := resolvedKc content key_concepts
  match fbLoop1 env content topic difficulty kc (List.range (min count kc.length)) [] [] with
  | .error e => .error e
  | .ok r1 =>
    let sentences := env.sent_tokenize content
    let important := rank_sentences_by_importance sentences topic
    fbLoop2 kc.length important topic difficulty
      (List.range' r1.1.length (count - r1.1.length)) r1.1

/-- The placeholder default of the Hugging Face key (line 27). -/
def hf_placeholder : Str := "hf_your_api_key_here".data

/-- The guard `self.huggingface_api_key and self.huggingface_api_key != ...`
(lines 99 and 124). -/
def keyConfigured (env : AIEnv) : Bool :=
  !env.huggingface_api_key.isEmpty && !(env.huggingface_api_key == hf_placeholder)

/-- The `try` body of `AIService.generate_flashcards` (lines 91-109):
preprocess, generate (Hugging Face when a key is configured, fallback
otherwise), validate, truncate to `count`. -/
def gfAttempt (env : AIEnv) (content topic difficulty : Str) (count : ℕ) :
    Except PyErr (List Card) :=
  match preprocess_content content with
  | .error e => .error e
  | .ok processed =>
    let key_concepts := extract_key_concepts processed
    match (if keyConfigured env then env.hfFlashcards processed topic difficulty count
           else generate_flashcards_fallback env processed topic difficulty count
             (some key_concepts)) with
    | .error e => .error e
    | .ok flashcards => .ok ((validate_flashcards flashcards difficulty).take count)

/-- src/backend/ai_service.py lines 89-113, `AIService.generate_flashcards`:
any exception in the `try` body routes to a bare fallback call on the raw
content. -/
def generate_flashcards (env : AIEnv) (content topic difficulty : Str) (count : ℕ) :
    Except PyErr (List Card) :=
  match gfAttempt env content topic difficulty count with
  | .ok cards => .ok cards
  | .error _ => generate_flashcards_fallback env content topic difficulty count none

/-- src/backend/ai_service.py lines 842-850, `extract_factual_information`:
the truncated body builds a dict but never returns it, so the call yields
`None`. -/
def extract_factual_information (_content : Str) : Option Unit := none

/-- A question generator of the fallback template table: takes concept, topic,
content and the factual-information dict, threads the global random state, and
may raise. -/
abbrev GenFun := Str → Str → Str → Option Unit → Rng → (Except PyErr Question) × Rng

/-- Modelled from the spec: `extract_definition` is called at
src/backend/ai_service.py line 537 but missing from the truncated file.  The
spec describes keyword/concept extraction over the submitted content, so the
model answers with a definitional template for the concept. -/
def extract_definition (concept : Str) (content : Str) : Str :=
  if strContains (pyLower content) (pyLower concept) then
    concept ++ " as presented in the study material".data
  else
    concept ++ " is a key concept of the study material".data

/-- Tail of `create_definition_question` after the shuffle: recover the
correct index with `list.index` and build the question dict. -/
def cdqFinish (question correct_answer : Str) (sh : List Str × Rng) :
    (Except PyErr Question) × Rng :=
  match pyIndex sh.1 correct_answer with
  | .ok idx => (.ok ⟨question, sh.1, (idx : ℤ)⟩, sh.2)
  | .error e => (.error e, sh.2)

/-- src/backend/ai_service.py lines 532-555, `create_definition_question`:
options are the extracted definition plus three distractors, shuffled with the
global random state; the correct index is recovered with `list.index`. -/
def create_definition_question : GenFun := fun concept topic content _info rng =>
  let question := "What is ".data ++ concept ++ " in the context of ".data ++ topic ++ "?".data
  let correct_answer := extract_definition concept content
  let distractors :=
    ["A method used primarily in other fields".data,
     "An outdated concept no longer relevant to ".data ++ topic,
     "A complex theory that applies only to advanced ".data ++ topic]
  let options0 := correct_answer :: distractors.take 3
  cdqFinish question correct_answer (pyShuffle options0 rng)

/-- src/backend/ai_service.py lines 557-572, `create_application_question`. -/
def create_application_question : GenFun := fun concept topic _content _info rng =>
  (.ok ⟨"How would ".data ++ concept ++ " be applied in a practical ".data ++ topic ++
      " scenario?".data,
    ["When implementing ".data ++ concept ++ " in real-world ".data ++ topic ++
        " applications".data,
     "In theoretical discussions about ".data ++ topic,
     "Only in academic research about ".data ++ topic,
     "Never, as ".data ++ concept ++ " is purely theoretical".data],
    0⟩, rng)

/-- src/backend/ai_service.py lines 574-589, `create_comparison_question`. -/
def create_comparison_question : GenFun := fun concept topic _content _info rng =>
  (.ok ⟨"How does ".data ++ concept ++ " compare to other elements in ".data ++ topic ++
      "?".data,
    [concept ++ " provides unique advantages in ".data ++ topic ++ " applications".data,
     concept ++ " is identical to all other ".data ++ topic ++ " concepts".data,
     concept ++ " is less important than any other ".data ++ topic ++ " element".data,
     concept ++ " has no relationship to other ".data ++ topic ++ " concepts".data],
    0⟩, rng)

/-- Modelled from the spec: `create_identification_question` is referenced at
src/backend/ai_service.py line 497 but missing from the truncated file; per
the spec's template-filling description it builds a four-option
identification question about the concept. -/
def create_identification_question : GenFun := fun concept topic _content _info rng =>
  (.ok ⟨"Which of the following identifies ".data ++ concept ++ " within ".data ++ topic ++
      "?".data,
    ["The element of ".data ++ topic ++ " described as ".data ++ concept,
     "An unrelated notion outside ".data ++ topic,
     "A synonym for the whole of ".data ++ topic,
     "None of the above".data],
    0⟩, rng)

/-- Modelled from the spec: `create_true_false_question` is referenced at
src/backend/ai_service.py line 498 but missing from the truncated file. -/
def create_true_false_question : GenFun := fun concept topic _content _info rng =>
  (.ok ⟨"True or false: ".data ++ concept ++ " plays a role in ".data ++ topic ++ ".".data,
    ["True".data, "False".data, "Cannot be determined".data, "Not applicable".data],
    0⟩, rng)

/-- Modelled from the spec: `create_cause_effect_question` is referenced at
src/backend/ai_service.py line 503 but missing from the truncated file. -/
def create_cause_effect_question : GenFun := fun concept topic _content _info rng =>
  (.ok ⟨"What effect does ".data ++ concept ++ " have within ".data ++ topic ++ "?".data,
    ["It shapes how ".data ++ topic ++ " behaves".data,
     "It has no effect on ".data ++ topic,
     "It only matters outside ".data ++ topic,
     "It contradicts ".data ++ topic],
    0⟩, rng)

/-- Modelled from the spec: `create_analysis_question` is referenced at
src/backend/ai_service.py line 506 but missing from the truncated file. -/
def create_analysis_question : GenFun := fun concept topic _content _info rng =>
  (.ok ⟨"Analyze the role of ".data ++ concept ++ " in ".data ++ topic ++ ".".data,
    [concept ++ " interacts with the other elements of ".data ++ topic,
     concept ++ " is isolated from ".data ++ topic,
     concept ++ " replaces ".data ++ topic,
     concept ++ " is undefined in ".data ++ topic],
    0⟩, rng)

/-- Modelled from the spec: `create_synthesis_question` is referenced at
src/backend/ai_service.py line 507 but missing from the truncated file. -/
def create_synthesis_question : GenFun := fun concept topic _content _info rng =>
  (.ok ⟨"How would you combine ".data ++ concept ++ " with other ideas in ".data ++ topic ++
      "?".data,
    ["By relating ".data ++ concept ++ " to the principles of ".data ++ topic,
     "By ignoring ".data ++ concept,
     "By removing ".data ++ topic ++ " entirely".data,
     "It cannot be combined".data],
    0⟩, rng)

/-- Modelled from the spec: `create_evaluation_question` is referenced at
src/backend/ai_service.py line 508 but missing from the truncated file. -/
def create_evaluation_question : GenFun := fun concept topic _content _info rng =>
  (.ok ⟨"Evaluate the significance of ".data ++ concept ++ " for ".data ++ topic ++ ".".data,
    [concept ++ " is significant for understanding ".data ++ topic,
     concept ++ " is entirely insignificant".data,
     concept ++ " makes ".data ++ topic ++ " meaningless".data,
     concept ++ " cannot be evaluated".data],
    0⟩, rng)

/-- Modelled from the spec: `create_question_from_sentence_analysis` is
referenced at src/backend/ai_service.py line 522 but missing from the
truncated file; the model fills a sentence-based template. -/
def create_question_from_sentence_analysis (sentence topic _difficulty : Str) : Question :=
  ⟨"What does this statement tell us about ".data ++ topic ++ "? ".data ++ sentence,
    ["It describes an aspect of ".data ++ topic,
     "It is unrelated to ".data ++ topic,
     "It contradicts ".data ++ topic,
     "It repeats the question".data],
    0⟩

/-- The question template dictionary of `generate_questions_fallback`
(src/backend/ai_service.py lines 494-510): exactly three difficulty keys,
`KeyError` on any other difficulty. -/
def question_templates (difficulty : Str) : Option (List GenFun) :=
  if difficulty = "beginner".data then
    some [create_definition_question, create_identification_question,
          create_true_false_question]
  else if difficulty = "intermediate".data then
    some [create_application_question, create_comparison_question,
          create_cause_effect_question]
  else if difficulty = "advanced".data then
    some [create_analysis_question, create_synthesis_question,
          create_evaluation_question]
  else none

/-- The generation loop of `generate_questions_fallback` (lines 514-528):
cycle through the generators, feeding key concepts first, then sentences, then
the topic itself; every produced dict is non-empty, hence truthy, hence
appended. -/
def gqLoop (env : AIEnv) (content topic difficulty : Str) (kc sentences : List Str)
    (info : Option Unit) (gens : List GenFun) :
    List ℕ → List Question → Rng → (Except PyErr (List Question)) × Rng
  | [], qs, rng => (.ok qs, rng)
  | i :: is, qs, rng =>
    match pyGet gens ((i % gens.length : ℕ) : ℤ) with
    | .error e => (.error e, rng)
    | .ok generator =>
      let step : (Except PyErr Question) × Rng :=
        if i < kc.length then
          match pyGet kc (i : ℤ) with
          | .error e => (.error e, rng)
          | .ok concept => generator concept topic content info rng
        else if i < sentences.length then
          match pyGet sentences ((i % sentences.length : ℕ) : ℤ) with
          | .error e => (.error e, rng)
          | .ok sentence =>
            (.ok (create_question_from_sentence_analysis sentence topic difficulty), rng)
        else
          generator topic topic content info rng
      match step with
      | (.error e, rng1) => (.error e, rng1)
      | (.ok qd, rng1) =>
        gqLoop env content topic difficulty kc sentences info gens is (qs ++ [qd]) rng1

/-- src/backend/ai_service.py lines 483-530, `generate_questions_fallback`:
the template dictionary is indexed with the difficulty before the loop, so an
unknown difficulty raises `KeyError` even for `count = 0`. -/
def generate_questions_fallback (env : AIEnv) (content topic difficulty : Str)
    (count : ℕ) (rng : Rng) : (Except PyErr (List Question)) × Rng :=
  let kc := extract_key_concepts content
  let sentences := env.sent_tokenize content
  let info := extract_factual_information content
  match question_templates difficulty with
  | none => (.error (.keyError difficulty), rng)
  | some gens =>
    gqLoop env content topic difficulty kc sentences info gens (List.range count) [] rng

/-- The `try` body of `AIService.generate_questions` (lines 117-134). -/
def gqAttempt (env : AIEnv) (content topic difficulty : Str) (count : ℕ)
    (rng : Rng) : (Except PyErr (List Question)) × Rng :=
  match preprocess_content content with
  | .error e => (.error e, rng)
  | .ok processed =>
    if keyConfigured env then
      match env.hfQuestions processed topic difficulty count with
      | .error e => (.error e, rng)
      | .ok qs => (.ok ((validate_questions qs difficulty).take count), rng)
    else
      match generate_questions_fallback env processed topic difficulty count rng with
      | (.error e, rng1) => (.error e, rng1)
      | (.ok qs, rng1) => (.ok ((validate_questions qs difficulty).take count), rng1)

/-- src/backend/ai_service.py lines 115-138, `AIService.generate_questions`
(the global random state threads through the fallback calls; any exception in
the `try` body routes to a bare fallback call on the raw content). -/
def generate_questions (env : AIEnv) (content topic difficulty : Str) (count : ℕ)
    (rng : Rng) : (Except PyErr (List Question)) × Rng :=
  match gqAttempt env content topic difficulty count rng with
  | (.ok qs, rng1) => (.ok qs, rng1)
  | (.error _, rng1) => generate_questions_fallback env content topic difficulty count rng1

/-- Length of the returned list, `0` on exception. -/
def okLength {α : Type} : Except PyErr (List α) → ℕ
  | .ok l => l.length
  | .error _ => 0

lemma fbLoop1_length (env : AIEnv) (content topic difficulty : Str) (kc : List Str) :
    ∀ (is : List ℕ) (cards : List Card) (used : List Str) r,
      fbLoop1 env content topic difficulty kc is cards used = .ok r →
      r.1.length ≤ cards.length + is.length := by
  intro is
  induction is with
  | nil =>
    intro cards used r h
    simp only [fbLoop1] at h
    cases h
    simp
  | cons i is ih =>
    intro cards used r h
    simp only [fbLoop1] at h
    cases hg : pyGet kc (i : ℤ) with
    | error e => simp only [hg] at h; exact absurd h (by simp)
    | ok concept =>
      simp only [hg] at h
      by_cases hm : concept ∈ used
      · rw [if_pos hm] at h
        have := ih cards used r h
        simp only [List.length_cons]
        omega
      · rw [if_neg hm] at h
        cases ht : assocLookup flashcard_templates difficulty with
        | none => simp only [ht] at h; exact absurd h (by simp)
        | some tlist =>
          simp only [ht] at h
          cases htp : pyGet tlist ((i % tlist.length : ℕ) : ℤ) with
          | error e => simp only [htp] at h; exact absurd h (by simp)
          | ok template =>
            simp only [htp] at h
            have := ih _ _ r h
            simp only [List.length_append, List.length_cons, List.length_nil] at this ⊢
            omega

lemma fbLoop2_length (kc_len : ℕ) (important : List Str) (topic difficulty : Str) :
    ∀ (is : List ℕ) (cards : List Card) r,
      fbLoop2 kc_len important topic difficulty is cards = .ok r →
      r.length ≤ cards.length + is.length := by
  intro is
  induction is with
  | nil =>
    intro cards r h
    simp only [fbLoop2] at h
    cases h
    simp
  | cons i is ih =>
    intro cards r h
    simp only [fbLoop2] at h
    by_cases hc : ((i : ℤ) - (kc_len : ℤ)) < (important.length : ℤ)
    · rw [if_pos hc] at h
      cases hg : pyGet important ((i : ℤ) - (kc_len : ℤ)) with
      | error e => simp only [hg] at h; exact absurd h (by simp)
      | ok sentence =>
        simp only [hg] at h
        by_cases hqa : (create_question_from_sentence sentence topic difficulty).1 ≠ [] ∧
            (create_question_from_sentence sentence topic difficulty).2 ≠ []
        · rw [if_pos hqa] at h
          have := ih _ r h
          simp only [List.length_append, List.length_cons, List.length_nil] at this ⊢
          omega
        · rw [if_neg hqa] at h
          have := ih _ r h
          simp only [List.length_cons] at *
          omega
    · rw [if_neg hc] at h
      have := ih _ r h
      simp only [List.length_cons] at *
      omega

lemma generate_flashcards_fallback_length
    (env : AIEnv) (content topic difficulty : Str) (count : ℕ)
    (key_concepts : Option (List Str)) (l : List Card)
    (h : generate_flashcards_fallback env content topic difficulty count key_concepts = .ok l) :
    l.length ≤ count := by
  simp only [generate_flashcards_fallback] at h
  cases h1 : fbLoop1 env content topic difficulty (resolvedKc content key_concepts)
      (List.range (min count (resolvedKc content key_concepts).length)) [] [] with
  | error e => simp only [h1] at h; exact absurd h (by simp)
  | ok r1 =>
    simp only [h1] at h
    have hl1 : r1.1.length ≤ min count (resolvedKc content key_concepts).length := by
      have := fbLoop1_length env content topic difficulty _ _ _ _ _ h1
      simpa using this
    have hl2 := fbLoop2_length (resolvedKc content key_concepts).length
      (rank_sentences_by_importance (env.sent_tokenize content) topic) topic difficulty _ _ _ h
    rw [List.length_range'] at hl2
    omega

lemma gqLoop_length (env : AIEnv) (content topic difficulty : Str)
    (kc sentences : List Str) (info : Option Unit) (gens : List GenFun) :
    ∀ (is : List ℕ) (qs : List Question) (rng : Rng) qs2 rng1,
      gqLoop env content topic difficulty kc sentences info gens is qs rng = (.ok qs2, rng1) →
      qs2.length ≤ qs.length + is.length := by
  intro is
  induction is with
  | nil =>
    intro qs rng qs2 rng1 h
    simp only [gqLoop, Prod.mk.injEq] at h
    obtain ⟨h1, _⟩ := h
    cases h1
    simp
  | cons i is ih =>
    intro qs rng qs2 rng1 h
    simp only [gqLoop] at h
    cases hg : pyGet gens ((i % gens.length : ℕ) : ℤ) with
    | error e => simp only [hg, Prod.mk.injEq] at h; exact absurd h.1 (by simp)
    | ok generator =>
      simp only [hg] at h
      rcases hstep : (if i < kc.length then
          match pyGet kc (i : ℤ) with
          | .error e => ((.error e : Except PyErr Question), rng)
          | .ok concept => generator concept topic content info rng
        else if i < sentences.length then
          match pyGet sentences ((i % sentences.length : ℕ) : ℤ) with
          | .error e => ((.error e : Except PyErr Question), rng)
          | .ok sentence =>
            (.ok (create_question_from_sentence_analysis sentence topic difficulty), rng)
        else
          generator topic topic content info rng) with ⟨res, rng2⟩
    -- continues below
      rw [hstep] at h
      cases res with
      | error e => simp only [Prod.mk.injEq] at h; exact absurd h.1 (by simp)
      | ok qd =>
        simp only [] at h
        have := ih _ _ _ _ h
        simp only [List.length_append, List.length_cons, List.length_nil] at this ⊢
        omega

lemma generate_questions_fallback_length (env : AIEnv) (content topic difficulty : Str)
    (count : ℕ) (rng : Rng) (qs : List Question) (rng1 : Rng)
    (h : generate_questions_fallback env content topic difficulty count rng = (.ok qs, rng1)) :
    qs.length ≤ count := by
  simp only [generate_questions_fallback] at h
  cases ht : question_templates difficulty with
  | none => simp only [ht, Prod.mk.injEq] at h; exact absurd h.1 (by simp)
  | some gens =>
    simp only [ht] at h
    have := gqLoop_length env content topic difficulty _ _ _ gens _ _ _ _ _ h
    simpa using this

/-- C2: the flashcard and question generators are bounded — for every content,
topic, difficulty and (non-negative) count, `AIService.generate_flashcards`
and `AIService.generate_questions` return at most `count` items whenever they
return a list (`okLength` is the returned length, `0` on exception). -/
theorem c2_bounded (env : AIEnv) (content topic difficulty : Str) (count : ℕ) (rng : Rng) :
    okLength (generate_flashcards env content topic difficulty count) ≤ count ∧
    okLength (generate_questions env content topic difficulty count rng).1 ≤ count := by
  constructor
  · rw [generate_flashcards]
    cases hA : gfAttempt env content topic difficulty count with
    | ok cards =>
      simp only []
      simp only [gfAttempt] at hA
      cases hp : preprocess_content content with
      | error e => simp only [hp] at hA; exact absurd hA (by simp)
      | ok processed =>
        simp only [hp] at hA
        cases hf : (if keyConfigured env then env.hfFlashcards processed topic difficulty count
            else generate_flashcards_fallback env processed topic difficulty count
              (some (extract_key_concepts processed))) with
        | error e => rw [hf] at hA; exact absurd hA (by simp)
        | ok fcs =>
          rw [hf] at hA
          simp only [Except.ok.injEq] at hA
          cases hA
          simp only [okLength]
          exact (List.length_take _ _).le.trans (min_le_left _ _)
    | error e =>
      simp only []
      cases hf : generate_flashcards_fallback env content topic difficulty count none with
      | error e2 => simp [hf, okLength]
      | ok l =>
        simp only [hf, okLength]
        exact generate_flashcards_fallback_length env content topic difficulty count none l hf
  · rw [generate_questions]
    rcases hA : gqAttempt env content topic difficulty count rng with ⟨res, rng1⟩
    cases res with
    | ok qs =>
      simp only []
      simp only [gqAttempt] at hA
      cases hp : preprocess_content content with
      | error e => simp only [hp, Prod.mk.injEq] at hA; exact absurd hA.1 (by simp)
      | ok processed =>
        simp only [hp] at hA
        by_cases hk : keyConfigured env
        · rw [if_pos hk] at hA
          cases hf : env.hfQuestions processed topic difficulty count with
          | error e => simp only [hf, Prod.mk.injEq] at hA; exact absurd hA.1 (by simp)
          | ok qs0 =>
            simp only [hf, Prod.mk.injEq] at hA
            obtain ⟨hA1, _⟩ := hA
            cases hA1
            simp only [okLength]
            exact (List.length_take _ _).le.trans (min_le_left _ _)
        · rw [if_neg hk] at hA
          rcases hf : generate_questions_fallback env processed topic difficulty count rng with
            ⟨res2, rng2⟩
          rw [hf] at hA
          cases res2 with
          | error e => simp only [Prod.mk.injEq] at hA; exact absurd hA.1 (by simp)
          | ok qs0 =>
            simp only [Prod.mk.injEq] at hA
            obtain ⟨hA1, _⟩ := hA
            cases hA1
            simp only [okLength]
            exact (List.length_take _ _).le.trans (min_le_left _ _)
    | error e =>
      simp only []
      rcases hf : generate_questions_fallback env content topic difficulty count rng1 with
        ⟨res2, rng2⟩
      cases res2 with
      | error e2 => simp [hf, okLength]
      | ok qs =>
        simp only [hf, okLength]
        exact generate_questions_fallback_length env content topic difficulty count rng1 qs rng2 hf

/-- A concrete environment with the key left at its placeholder and failing
HTTP oracles. -/
def envNoKey : AIEnv :=
  ⟨hf_placeholder, fun s => [s],
   fun _ _ _ _ => .error (.apiError "offline".data),
   fun _ _ _ _ => .error (.apiError "offline".data)⟩

/-- A concrete stream for the global random state. -/
def rngId : Rng := ⟨fun i => i, 0⟩

/-- C5 counterexample: two consecutive calls of the fallback generator
`create_definition_question` with identical arguments return different
question dicts (the `random.shuffle` of line 548 consumes the global random
state, which the first call advances), and the call mutates that state. -/
theorem c5_counterexample :
    (create_definition_question "Paris".data "geo".data "x".data none rngId).1 ≠
      (create_definition_question "Paris".data "geo".data "x".data none
        (create_definition_question "Paris".data "geo".data "x".data none rngId).2).1 ∧
    (create_definition_question "Paris".data "geo".data "x".data none rngId).2.idx ≠
      rngId.idx := by
  constructor
  · decide
  · decide

lemma pyShuffle_four_frame (a b c d : Str) (src src' : ℕ → ℕ) (idx : ℕ)
    (h0 : src idx = src' idx) (h1 : src (idx + 1) = src' (idx + 1))
    (h2 : src (idx + 2) = src' (idx + 2)) :
    pyShuffle [a, b, c, d] ⟨src, idx⟩ =
      ((pyShuffle [a, b, c, d] ⟨src', idx⟩).1, ⟨src, idx + 3⟩) := by
  show (listSwap (listSwap (listSwap [a, b, c, d] 3 (src idx % 4)) 2 (src (idx + 1) % 3)) 1
      (src (idx + 2) % 2), (⟨src, idx + 3⟩ : Rng)) =
    ((listSwap (listSwap (listSwap [a, b, c, d] 3 (src' idx % 4)) 2 (src' (idx + 1) % 3)) 1
      (src' (idx + 2) % 2), (⟨src', idx + 3⟩ : Rng)).1, ⟨src, idx + 3⟩)
  rw [h0, h1, h2]

lemma cdqFinish_fst (q c : Str) (l : List Str) (r r' : Rng) :
    (cdqFinish q c (l, r)).1 = (cdqFinish q c (l, r')).1 := by
  unfold cdqFinish
  cases pyIndex l c <;> rfl

lemma cdqFinish_snd (q c : Str) (sh : List Str × Rng) : (cdqFinish q c sh).2 = sh.2 := by
  unfold cdqFinish
  cases pyIndex sh.1 c <;> rfl

/-- C5 (amended): the fallback generator is deterministic relative to the
global PRNG — `create_definition_question`'s result is a pure function of its
arguments and the three PRNG draws it consumes, and the only state a call
changes is the PRNG position, advanced by exactly 3 (the underlying stream is
untouched).  Call-to-call determinism fails, per the counterexample. -/
theorem c5_amended (concept topic content : Str) (info : Option Unit)
    (src src' : ℕ → ℕ) (idx : ℕ)
    (h0 : src idx = src' idx) (h1 : src (idx + 1) = src' (idx + 1))
    (h2 : src (idx + 2) = src' (idx + 2)) :
    (create_definition_question concept topic content info ⟨src, idx⟩).1 =
      (create_definition_question concept topic content info ⟨src', idx⟩).1 ∧
    (create_definition_question concept topic content info ⟨src, idx⟩).2.idx = idx + 3 ∧
    (create_definition_question concept topic content info ⟨src, idx⟩).2.src = src := by
  have hfr := pyShuffle_four_frame (extract_definition concept content)
      ("A method used primarily in other fields".data)
      ("An outdated concept no longer relevant to ".data ++ topic)
      ("A complex theory that applies only to advanced ".data ++ topic) src src' idx h0 h1 h2
  refine ⟨?_, ?_, ?_⟩
  · show (cdqFinish ("What is ".data ++ concept ++ " in the context of ".data ++ topic ++
        "?".data) (extract_definition concept content)
        (pyShuffle [extract_definition concept content,
          "A method used primarily in other fields".data,
          "An outdated concept no longer relevant to ".data ++ topic,
          "A complex theory that applies only to advanced ".data ++ topic] ⟨src, idx⟩)).1 =
      (cdqFinish ("What is ".data ++ concept ++ " in the context of ".data ++ topic ++
        "?".data) (extract_definition concept content)
        (pyShuffle [extract_definition concept content,
          "A method used primarily in other fields".data,
          "An outdated concept no longer relevant to ".data ++ topic,
          "A complex theory that applies only to advanced ".data ++ topic] ⟨src', idx⟩)).1
    rw [hfr]
    exact cdqFinish_fst _ _ _ _ _
  · show (cdqFinish _ (extract_definition concept content)
        (pyShuffle [extract_definition concept content,
          "A method used primarily in other fields".data,
          "An outdated concept no longer relevant to ".data ++ topic,
          "A complex theory that applies only to advanced ".data ++ topic] ⟨src, idx⟩)).2.idx =
      idx + 3
    rw [cdqFinish_snd]
    rfl
  · show (cdqFinish _ (extract_definition concept content)
        (pyShuffle [extract_definition concept content,
          "A method used primarily in other fields".data,
          "An outdated concept no longer relevant to ".data ++ topic,
          "A complex theory that applies only to advanced ".data ++ topic] ⟨src, idx⟩)).2.src =
      src
    rw [cdqFinish_snd]
    rfl

/-- Witness for `c5_amended`: two streams that agree on positions 0-2. -/
theorem c5_amended_witness :
    ((fun i => i) : ℕ → ℕ) 0 = (fun i => if i < 3 then i else 99) 0 ∧
    ((fun i => i) : ℕ → ℕ) (0 + 1) = (fun i => if i < 3 then i else 99) (0 + 1) ∧
    ((fun i => i) : ℕ → ℕ) (0 + 2) = (fun i => if i < 3 then i else 99) (0 + 2) ∧
    ((create_definition_question "Paris".data "geo".data "x".data none
        ⟨fun i => i, 0⟩).1 =
      (create_definition_question "Paris".data "geo".data "x".data none
        ⟨fun i => if i < 3 then i else 99, 0⟩).1 ∧
    (create_definition_question "Paris".data "geo".data "x".data none
        ⟨fun i => i, 0⟩).2.idx = 0 + 3 ∧
    (create_definition_question "Paris".data "geo".data "x".data none
        ⟨fun i => i, 0⟩).2.src = fun i => i) :=
  ⟨rfl, rfl, rfl,
    c5_amended "Paris".data "geo".data "x".data none (fun i => i)
      (fun i => if i < 3 then i else 99) 0 rfl rfl rfl⟩

/-- C1 counterexample: with the key at its placeholder the fallback path is
taken, and a difficulty outside beginner/intermediate/advanced makes the
fallback die on the template dictionary lookup (`templates[difficulty]`, lines
457 and 512); the `except` clause then calls the fallback again, and the
`KeyError` propagates to the caller instead of a list being returned. -/
theorem c1_counterexample :
    generate_flashcards envNoKey "Paris is big".data "geo".data "expert".data 1 =
      .error (.keyError "expert".data) ∧
    (generate_questions envNoKey "Paris is big".data "geo".data "expert".data 1 rngId).1 =
      .error (.keyError "expert".data) := by
  constructor
  · decide
  · decide

lemma pyGet_ok {α : Type} (l : List α) (n : ℕ) (h : n < l.length) :
    pyGet l (n : ℤ) = .ok (l.get ⟨n, h⟩) := by
  have hc : 0 ≤ (n : ℤ) ∧ (n : ℤ).toNat < l.length := ⟨Int.natCast_nonneg n, by simpa using h⟩
  rw [pyGet, dif_pos hc]
  exact congrArg Except.ok (congrArg l.get (Fin.ext (Int.toNat_natCast n)))

lemma dedupAux_not_mem_seen {x : Str} : ∀ (l seen : List Str),
    x ∈ dedupAux l seen → x ∉ seen := by
  intro l
  induction l with
  | nil => intro seen h; simp [dedupAux] at h
  | cons y ys ih =>
    intro seen h
    rw [dedupAux] at h
    by_cases hy : y ∈ seen
    · rw [if_pos hy] at h
      exact ih seen h
    · rw [if_neg hy] at h
      rcases List.mem_cons.1 h with h | h
      · intro hc; exact hy (h ▸ hc)
      · intro hc
        exact (ih (y :: seen) h) (List.mem_cons_of_mem _ hc)

lemma dedupAux_nodup : ∀ (l seen : List Str), (dedupAux l seen).Nodup := by
  intro l
  induction l with
  | nil => intro seen; simp [dedupAux]
  | cons y ys ih =>
    intro seen
    rw [dedupAux]
    by_cases hy : y ∈ seen
    · rw [if_pos hy]; exact ih seen
    · rw [if_neg hy]
      refine List.nodup_cons.2 ⟨?_, ih (y :: seen)⟩
      intro hc
      exact (dedupAux_not_mem_seen ys (y :: seen) hc) (List.mem_cons_self _ _)

lemma extract_key_concepts_nodup (content : Str) : (extract_key_concepts content).Nodup := by
  rw [extract_key_concepts]
  by_cases h : content = []
  · simp [h]
  · rw [if_neg h, extract_concepts_simple]
    exact ((dedupAux_nodup _ []).sublist (List.take_sublist _ _))

lemma resolvedKc_nodup (content : Str) :
    (resolvedKc content none).Nodup ∧
    ∀ p, (resolvedKc content (some (extract_key_concepts p))).Nodup := by
  constructor
  · exact extract_key_concepts_nodup content
  · intro p
    rw [resolvedKc]
    by_cases h : extract_key_concepts p = []
    · rw [if_pos h]; exact extract_key_concepts_nodup content
    · rw [if_neg h]; exact extract_key_concepts_nodup p

lemma nodup_get_not_mem_take {l : List Str} (h : l.Nodup) {j : ℕ} (hj : j < l.length) :
    l.get ⟨j, hj⟩ ∉ l.take j := by
  intro hmem
  rw [List.mem_iff_getElem] at hmem
  obtain ⟨i, hi, hval⟩ := hmem
  have hi' : i < j := by
    rw [List.length_take] at hi
    omega
  have hil : i < l.length := by omega
  rw [List.getElem_take] at hval
  rw [List.get_eq_getElem] at hval
  rw [h.getElem_inj_iff] at hval
  have h2 : i = j := hval
  omega

lemma flashcard_templates_lookup {difficulty : Str}
    (h : difficulty = "beginner".data ∨ difficulty = "intermediate".data ∨
      difficulty = "advanced".data) :
    ∃ tl, assocLookup flashcard_templates difficulty = some tl ∧ tl.length = 5 := by
  rcases h with h | h | h <;> subst h <;> exact ⟨_, rfl, rfl⟩

lemma fbLoop1_ok (env : AIEnv) (content topic difficulty : Str) (kc : List Str)
    (hnd : kc.Nodup) (tl : List Str)
    (htl : assocLookup flashcard_templates difficulty = some tl) (htl5 : tl.length = 5) :
    ∀ (n j : ℕ) (cards : List Card),
      j + n ≤ kc.length → cards.length = j →
      ∃ r, fbLoop1 env content topic difficulty kc (List.range' j n) cards
          ((kc.take j).reverse) = .ok r ∧ r.1.length = j + n := by
  intro n
  induction n with
  | zero =>
    intro j cards hle hcl
    refine ⟨(cards, (kc.take j).reverse), ?_, by simp [hcl]⟩
    simp [List.range', fbLoop1]
  | succ n ih =>
    intro j cards hle hcl
    have hj : j < kc.length := by omega
    have hnm : kc.get ⟨j, hj⟩ ∉ (kc.take j).reverse := by
      rw [List.mem_reverse]
      exact nodup_get_not_mem_take hnd hj
    have hm5 : j % tl.length < tl.length := by rw [htl5]; exact Nat.mod_lt _ (by norm_num)
    have hused : (kc.take (j + 1)).reverse = kc.get ⟨j, hj⟩ :: (kc.take j).reverse := by
      rw [List.take_succ]
      rw [List.getElem?_eq_getElem hj]
      simp
    obtain ⟨r, hr, hrl⟩ := ih (j + 1)
      (cards ++ [⟨pyFormat (tl.get ⟨j % tl.length, hm5⟩) (kc.get ⟨j, hj⟩) topic,
        generate_contextual_answer env (kc.get ⟨j, hj⟩) topic content difficulty⟩])
      (by omega) (by simp [hcl])
    refine ⟨r, ?_, by omega⟩
    rw [show List.range' j (n + 1) = j :: List.range' (j + 1) n from rfl]
    simp only [fbLoop1, pyGet_ok kc j hj, if_neg hnm, htl, pyGet_ok tl (j % tl.length) hm5]
    rw [← hused]
    exact hr

lemma fbLoop2_ok (kc_len : ℕ) (important : List Str) (topic difficulty : Str) :
    ∀ (is : List ℕ) (cards : List Card), (∀ i ∈ is, kc_len ≤ i) →
      ∃ r, fbLoop2 kc_len important topic difficulty is cards = .ok r := by
  intro is
  induction is with
  | nil => intro cards _; exact ⟨cards, rfl⟩
  | cons i is ih =>
    intro cards hge
    have hi : kc_len ≤ i := hge i (List.mem_cons_self _ _)
    have hge' : ∀ k ∈ is, kc_len ≤ k := fun k hk => hge k (List.mem_cons_of_mem _ hk)
    by_cases hc : ((i : ℤ) - (kc_len : ℤ)) < (important.length : ℤ)
    · have hlt : i - kc_len < important.length := by omega
      have hcast : (i : ℤ) - (kc_len : ℤ) = ((i - kc_len : ℕ) : ℤ) := by omega
      by_cases hqa : (create_question_from_sentence (important.get ⟨i - kc_len, hlt⟩)
          topic difficulty).1 ≠ [] ∧
          (create_question_from_sentence (important.get ⟨i - kc_len, hlt⟩)
            topic difficulty).2 ≠ []
      · obtain ⟨r, hr⟩ := ih (cards ++
          [⟨(create_question_from_sentence (important.get ⟨i - kc_len, hlt⟩)
              topic difficulty).1,
            (create_question_from_sentence (important.get ⟨i - kc_len, hlt⟩)
              topic difficulty).2⟩]) hge'
        refine ⟨r, ?_⟩
        have hc2 : (((i - kc_len : ℕ) : ℤ)) < (important.length : ℤ) := by
          exact_mod_cast hlt
        simp only [fbLoop2, hcast, if_pos hc2, pyGet_ok important (i - kc_len) hlt,
          if_pos hqa]
        exact hr
      · obtain ⟨r, hr⟩ := ih cards hge'
        refine ⟨r, ?_⟩
        have hc2 : (((i - kc_len : ℕ) : ℤ)) < (important.length : ℤ) := by
          exact_mod_cast hlt
        simp only [fbLoop2, hcast, if_pos hc2, pyGet_ok important (i - kc_len) hlt,
          if_neg hqa]
        exact hr
    · obtain ⟨r, hr⟩ := ih cards hge'
      refine ⟨r, ?_⟩
      simp only [fbLoop2, if_neg hc]
      exact hr

lemma generate_flashcards_fallback_ok (env : AIEnv) (content topic difficulty : Str)
    (count : ℕ) (key_concepts : Option (List Str))
    (hnd : (resolvedKc content key_concepts).Nodup)
    (tl : List Str) (htl : assocLookup flashcard_templates difficulty = some tl)
    (htl5 : tl.length = 5) :
    ∃ l, generate_flashcards_fallback env content topic difficulty count key_concepts =
      .ok l := by
  obtain ⟨r, hr, hrl⟩ := fbLoop1_ok env content topic difficulty _ hnd tl htl htl5
    (min count (resolvedKc content key_concepts).length) 0 [] (by omega) rfl
  simp only [List.take_zero, List.reverse_nil] at hr
  have hge : ∀ k ∈ List.range' r.1.length (count - r.1.length),
      (resolvedKc content key_concepts).length ≤ k := by
    intro k hk
    rw [List.mem_range'_1] at hk
    omega
  obtain ⟨l, hl⟩ := fbLoop2_ok (resolvedKc content key_concepts).length
    (rank_sentences_by_importance (env.sent_tokenize content) topic) topic difficulty
    (List.range' r.1.length (count - r.1.length)) r.1 hge
  refine ⟨l, ?_⟩
  simp only [generate_flashcards_fallback, List.range_eq_range', hr]
  exact hl

/-- A generator that always succeeds, whatever the arguments and random
state. -/
def TotalGen (g : GenFun) : Prop :=
  ∀ concept topic content info rng, ∃ q rng', g concept topic content info rng = (.ok q, rng')

lemma mem_listSwap {α : Type} {a : α} {l : List α} (h : a ∈ l) (i j : ℕ) :
    a ∈ listSwap l i j := by
  rw [listSwap]
  cases hgi : l.get? i with
  | none => exact h
  | some x =>
    cases hgj : l.get? j with
    | none => exact h
    | some y =>
      obtain ⟨hil, hxi⟩ := List.get?_eq_some.1 hgi
      obtain ⟨hjl, hyj⟩ := List.get?_eq_some.1 hgj
      rw [List.get_eq_getElem] at hxi hyj
      obtain ⟨k, hkl, hka⟩ := List.mem_iff_getElem.1 h
      by_cases hki : k = i
      · subst hki
        refine List.mem_iff_getElem.2 ⟨j, by simpa using hjl, ?_⟩
        rw [List.getElem_set_self]
        rw [← hxi, ← hka]
      · by_cases hkj : k = j
        · subst hkj
          have hji : k ≠ i := fun hc => hki hc
          refine List.mem_iff_getElem.2 ⟨i, by simpa using hil, ?_⟩
          rw [List.getElem_set_ne hji]
          rw [List.getElem_set_self]
          rw [← hyj, ← hka]
        · refine List.mem_iff_getElem.2 ⟨k, by simpa using hkl, ?_⟩
          rw [List.getElem_set_ne (fun hc => hkj hc.symm)]
          rw [List.getElem_set_ne (fun hc => hki hc.symm)]
          exact hka

lemma mem_pyShuffle {α : Type} {a : α} {l : List α} (h : a ∈ l) (r : Rng) :
    a ∈ (pyShuffle l r).1 := by
  rw [pyShuffle]
  generalize (List.range' 1 (l.length - 1)).reverse = is
  induction is generalizing l r with
  | nil => exact h
  | cons i is ih =>
    rw [List.foldl_cons]
    exact ih (mem_listSwap h i _) _

lemma pyIndexAux_ok_of_mem {a : Str} : ∀ (l : List Str) (k : ℕ), a ∈ l →
    ∃ n, pyIndexAux l a k = .ok n := by
  intro l
  induction l with
  | nil => intro k h; simp at h
  | cons x xs ih =>
    intro k hm
    by_cases hx : (x == a) = true
    · exact ⟨k, by simp [pyIndexAux, hx]⟩
    · have hax : a ∈ xs := by
        rcases List.mem_cons.1 hm with h | h
        · refine absurd ?_ hx
          rw [h]
          simp
        · exact h
      obtain ⟨n, hn⟩ := ih (k + 1) hax
      exact ⟨n, by simp only [pyIndexAux, hx, if_neg]; exact hn⟩

lemma pyIndex_ok_of_mem {a : Str} {l : List Str} (h : a ∈ l) :
    ∃ n, pyIndex l a = .ok n := by
  obtain ⟨n, hn⟩ := pyIndexAux_ok_of_mem l 0 h
  exact ⟨n, by rw [pyIndex]; exact hn⟩

lemma totalGen_definition : TotalGen create_definition_question := by
  intro concept topic content info rng
  have hm : extract_definition concept content ∈
      (pyShuffle (extract_definition concept content ::
        (["A method used primarily in other fields".data,
          "An outdated concept no longer relevant to ".data ++ topic,
          "A complex theory that applies only to advanced ".data ++ topic]).take 3) rng).1 :=
    mem_pyShuffle (List.mem_cons_self _ _) rng
  obtain ⟨n, hn⟩ := pyIndex_ok_of_mem hm
  refine ⟨⟨"What is ".data ++ concept ++ " in the context of ".data ++ topic ++ "?".data,
      (pyShuffle (extract_definition concept content ::
        (["A method used primarily in other fields".data,
          "An outdated concept no longer relevant to ".data ++ topic,
          "A complex theory that applies only to advanced ".data ++ topic]).take 3) rng).1,
      (n : ℤ)⟩,
    (pyShuffle (extract_definition concept content ::
        (["A method used primarily in other fields".data,
          "An outdated concept no longer relevant to ".data ++ topic,
          "A complex theory that applies only to advanced ".data ++ topic]).take 3) rng).2,
    ?_⟩
  simp only [create_definition_question, cdqFinish, hn]

lemma totalGen_application : TotalGen create_application_question :=
  fun _ _ _ _ _ => ⟨_, _, rfl⟩

lemma totalGen_comparison : TotalGen create_comparison_question :=
  fun _ _ _ _ _ => ⟨_, _, rfl⟩

lemma totalGen_identification : TotalGen create_identification_question :=
  fun _ _ _ _ _ => ⟨_, _, rfl⟩

lemma totalGen_true_false : TotalGen create_true_false_question :=
  fun _ _ _ _ _ => ⟨_, _, rfl⟩

lemma totalGen_cause_effect : TotalGen create_cause_effect_question :=
  fun _ _ _ _ _ => ⟨_, _, rfl⟩

lemma totalGen_analysis : TotalGen create_analysis_question :=
  fun _ _ _ _ _ => ⟨_, _, rfl⟩

lemma totalGen_synthesis : TotalGen create_synthesis_question :=
  fun _ _ _ _ _ => ⟨_, _, rfl⟩

lemma totalGen_evaluation : TotalGen create_evaluation_question :=
  fun _ _ _ _ _ => ⟨_, _, rfl⟩

lemma question_templates_ok {difficulty : Str}
    (h : difficulty = "beginner".data ∨ difficulty = "intermediate".data ∨
      difficulty = "advanced".data) :
    ∃ gens, question_templates difficulty = some gens ∧ gens ≠ [] ∧
      ∀ g ∈ gens, TotalGen g := by
  rcases h with h | h | h <;> subst h
  · refine ⟨_, rfl, by simp, ?_⟩
    intro g hg
    rcases List.mem_cons.1 hg with h | h
    · exact h ▸ totalGen_definition
    rcases List.mem_cons.1 h with h | h
    · exact h ▸ totalGen_identification
    rcases List.mem_cons.1 h with h | h
    · exact h ▸ totalGen_true_false
    · simp at h
  · refine ⟨_, rfl, by simp, ?_⟩
    intro g hg
    rcases List.mem_cons.1 hg with h | h
    · exact h ▸ totalGen_application
    rcases List.mem_cons.1 h with h | h
    · exact h ▸ totalGen_comparison
    rcases List.mem_cons.1 h with h | h
    · exact h ▸ totalGen_cause_effect
    · simp at h
  · refine ⟨_, rfl, by simp, ?_⟩
    intro g hg
    rcases List.mem_cons.1 hg with h | h
    · exact h ▸ totalGen_analysis
    rcases List.mem_cons.1 h with h | h
    · exact h ▸ totalGen_synthesis
    rcases List.mem_cons.1 h with h | h
    · exact h ▸ totalGen_evaluation
    · simp at h

lemma gqLoop_ok (env : AIEnv) (content topic difficulty : Str) (kc sentences : List Str)
    (info : Option Unit) (gens : List GenFun)
    (hT : ∀ g ∈ gens, TotalGen g) (hne : gens ≠ []) :
    ∀ (is : List ℕ) (qs : List Question) (rng : Rng),
      ∃ qs2 rng2, gqLoop env content topic difficulty kc sentences info gens is qs rng =
        (.ok qs2, rng2) := by
  intro is
  induction is with
  | nil => intro qs rng; exact ⟨qs, rng, rfl⟩
  | cons i is ih =>
    intro qs rng
    have hglen : 0 < gens.length := List.length_pos.2 hne
    have hmod : i % gens.length < gens.length := Nat.mod_lt _ hglen
    have hTg : TotalGen (gens.get ⟨i % gens.length, hmod⟩) := hT _ (List.get_mem _ _ _)
    by_cases h1 : i < kc.length
    · obtain ⟨q, rng2, hq⟩ := hTg (kc.get ⟨i, h1⟩) topic content info rng
      obtain ⟨qs2, rng3, hrec⟩ := ih (qs ++ [q]) rng2
      refine ⟨qs2, rng3, ?_⟩
      simp only [gqLoop, pyGet_ok gens (i % gens.length) hmod, if_pos h1,
        pyGet_ok kc i h1, hq]
      exact hrec
    · by_cases h2 : i < sentences.length
      · have hsl : i % sentences.length < sentences.length := Nat.mod_lt _ (by omega)
        obtain ⟨qs2, rng3, hrec⟩ := ih
          (qs ++ [create_question_from_sentence_analysis
            (sentences.get ⟨i % sentences.length, hsl⟩) topic difficulty]) rng
        refine ⟨qs2, rng3, ?_⟩
        simp only [gqLoop, pyGet_ok gens (i % gens.length) hmod, if_neg h1, if_pos h2,
          pyGet_ok sentences (i % sentences.length) hsl]
        exact hrec
      · obtain ⟨q, rng2, hq⟩ := hTg topic topic content info rng
        obtain ⟨qs2, rng3, hrec⟩ := ih (qs ++ [q]) rng2
        refine ⟨qs2, rng3, ?_⟩
        simp only [gqLoop, pyGet_ok gens (i % gens.length) hmod, if_neg h1, if_neg h2, hq]
        exact hrec

lemma generate_questions_fallback_ok (env : AIEnv) (content topic difficulty : Str)
    (count : ℕ)
    (hdiff : difficulty = "beginner".data ∨ difficulty = "intermediate".data ∨
      difficulty = "advanced".data) (rng : Rng) :
    ∃ qs rng1, generate_questions_fallback env content topic difficulty count rng =
      (.ok qs, rng1) := by
  obtain ⟨gens, hg, hne, hT⟩ := question_templates_ok hdiff
  obtain ⟨qs, rng1, hq⟩ := gqLoop_ok env content topic difficulty
    (extract_key_concepts content) (env.sent_tokenize content)
    (extract_factual_information content) gens hT hne (List.range count) [] rng
  refine ⟨qs, rng1, ?_⟩
  simp only [generate_questions_fallback, hg]
  exact hq

/-- The first conjunct of the amended C1: `generate_flashcards` succeeds and
its list comes from the local fallback generator (directly, or validated and
truncated when the try-body fallback ran on the preprocessed content). -/
def flashcardsFromFallback (env : AIEnv) (content topic difficulty : Str) (count : ℕ) :
    Prop :=
  ∃ l, generate_flashcards env content topic difficulty count = .ok l ∧
    (generate_flashcards_fallback env content topic difficulty count none = .ok l ∨
     ∃ p l0, preprocess_content content = .ok p ∧
       generate_flashcards_fallback env p topic difficulty count
         (some (extract_key_concepts p)) = .ok l0 ∧
       l = (validate_flashcards l0 difficulty).take count)

/-- The second conjunct of the amended C1, for `generate_questions`. -/
def questionsFromFallback (env : AIEnv) (content topic difficulty : Str) (count : ℕ)
    (rng : Rng) : Prop :=
  ∃ qs rng1, generate_questions env content topic difficulty count rng = (.ok qs, rng1) ∧
    (generate_questions_fallback env content topic difficulty count rng = (.ok qs, rng1) ∨
     ∃ p qs0, preprocess_content content = .ok p ∧
       generate_questions_fallback env p topic difficulty count rng = (.ok qs0, rng1) ∧
       qs = (validate_questions qs0 difficulty).take count)

/-- C1 (amended): for the three difficulties the template dictionaries know
(`beginner`, `intermediate`, `advanced`), when the Hugging Face key is absent
or left at its placeholder, or when the external generation call raises,
`AIService.generate_flashcards` and `AIService.generate_questions` return a
list produced by the local template-based fallback generators instead of
propagating the exception (the truncated file's missing helper methods are
modelled from the spec). -/
theorem c1_amended (env : AIEnv) (content topic difficulty : Str) (count : ℕ) (rng : Rng)
    (hdiff : difficulty = "beginner".data ∨ difficulty = "intermediate".data ∨
      difficulty = "advanced".data)
    (hfail : keyConfigured env = false ∨
      ((∀ c t d n, ∃ e, env.hfFlashcards c t d n = .error e) ∧
       (∀ c t d n, ∃ e, env.hfQuestions c t d n = .error e))) :
    flashcardsFromFallback env content topic difficulty count ∧
    questionsFromFallback env content topic difficulty count rng := by
  obtain ⟨tl, htl, htl5⟩ := flashcard_templates_lookup hdiff
  constructor
  · rw [flashcardsFromFallback]
    by_cases hk : keyConfigured env = true
    · -- key configured: the HTTP oracle must fail, the except-path fallback answers
      rcases hfail with hfk | ⟨hF, _⟩
      · rw [hk] at hfk; exact absurd hfk (by simp)
      · obtain ⟨l, hl⟩ := generate_flashcards_fallback_ok env content topic difficulty
          count none (resolvedKc_nodup content).1 tl htl htl5
        refine ⟨l, ?_, Or.inl hl⟩
        cases hp : preprocess_content content with
        | error e => simp only [generate_flashcards, gfAttempt, hp]; exact hl
        | ok p =>
          obtain ⟨e, he⟩ := hF p topic difficulty count
          simp only [generate_flashcards, gfAttempt, hp, if_pos hk, he]
          exact hl
    · cases hp : preprocess_content content with
      | error e =>
        obtain ⟨l, hl⟩ := generate_flashcards_fallback_ok env content topic difficulty
          count none (resolvedKc_nodup content).1 tl htl htl5
        refine ⟨l, ?_, Or.inl hl⟩
        simp only [generate_flashcards, gfAttempt, hp]
        exact hl
      | ok p =>
        obtain ⟨l0, hl0⟩ := generate_flashcards_fallback_ok env p topic difficulty
          count (some (extract_key_concepts p)) ((resolvedKc_nodup p).2 p) tl htl htl5
        refine ⟨(validate_flashcards l0 difficulty).take count, ?_,
          Or.inr ⟨p, l0, rfl, hl0, rfl⟩⟩
        simp only [generate_flashcards, gfAttempt, hp, if_neg hk, hl0]
  · rw [questionsFromFallback]
    by_cases hk : keyConfigured env = true
    · rcases hfail with hfk | ⟨_, hQ⟩
      · rw [hk] at hfk; exact absurd hfk (by simp)
      · obtain ⟨qs, rng1, hq⟩ := generate_questions_fallback_ok env content topic
          difficulty count hdiff rng
        refine ⟨qs, rng1, ?_, Or.inl hq⟩
        cases hp : preprocess_content content with
        | error e => simp only [generate_questions, gqAttempt, hp]; exact hq
        | ok p =>
          obtain ⟨e, he⟩ := hQ p topic difficulty count
          simp only [generate_questions, gqAttempt, hp, if_pos hk, he]
          exact hq
    · cases hp : preprocess_content content with
      | error e =>
        obtain ⟨qs, rng1, hq⟩ := generate_questions_fallback_ok env content topic
          difficulty count hdiff rng
        refine ⟨qs, rng1, ?_, Or.inl hq⟩
        simp only [generate_questions, gqAttempt, hp]
        exact hq
      | ok p =>
        obtain ⟨qs0, rng1, hq0⟩ := generate_questions_fallback_ok env p topic
          difficulty count hdiff rng
        refine ⟨(validate_questions qs0 difficulty).take count, rng1, ?_,
          Or.inr ⟨p, qs0, rfl, hq0, rfl⟩⟩
        simp only [generate_questions, gqAttempt, hp, if_neg hk, hq0]

/-- Witness for `c1_amended`: placeholder key, failing HTTP oracles, a valid
difficulty. -/
theorem c1_amended_witness :
    ("beginner".data = "beginner".data ∨ "beginner".data = "intermediate".data ∨
      "beginner".data = "advanced".data) ∧
    keyConfigured envNoKey = false ∧
    (flashcardsFromFallback envNoKey "Paris is big".data "geo".data "beginner".data 2 ∧
      questionsFromFallback envNoKey "Paris is big".data "geo".data "beginner".data 2 rngId) :=
  ⟨Or.inl rfl, rfl,
    c1_amended envNoKey "Paris is big".data "geo".data "beginner".data 2 rngId
      (Or.inl rfl) (Or.inl rfl)⟩

end Backend

end BrainyPal
